import Mathlib

/-!
Verification development for the cloi agentic debugging assistant.

This file gives a shallow embedding, in Lean 4, of the core of the
repository: the hybrid retrieval module (`src/rag/hybridSearch.js`), the
error evolution engine, agent context management and context optimizer
(`agent_prompt.js`), the tool layer and tool dispatcher
(`src/utils/cliTools.js`), and the orchestrator loop (`src/cli/index.js`).

Modelling conventions, used throughout:
- JavaScript numbers that carry scores or weights are modelled as `ℚ`
  (the code only ever compares, adds, multiplies and divides them);
  step counters and sizes are `Nat`, and comparisons that can go
  negative in JavaScript are performed in `ℤ`.
- Strings are Lean `String`s; the handful of regular expressions used by
  the source are implemented directly as scanning functions over
  `List Char`, with the exact character classes and alternation order of
  the source patterns.
- Timestamps (`new Date().toISOString()`, `Date.now()`) are dropped from
  records, except where a cache-validity check reads them, in which case
  the clock is an explicit parameter.
- Filesystem, subprocess and user interaction are external capabilities
  of the program; they are modelled as an explicit `Env` record of
  oracles.  `resolve(cwd, p)` / `relative(cwd, p)` are modelled as the
  identity on session-relative path strings: every path in a context is
  already stored relative to the session working directory, so the
  round-trip through `resolve`/`relative` is a no-op in the model.
- A JavaScript exception is an `Except.error`; a `try`/`catch` is a
  `match` on it.
-/

namespace Cloi

/-! ## Small JavaScript-flavoured helpers -/

/-- Whether `sub` occurs as a contiguous run inside `l`. -/
def listHasRun [DecidableEq α] (sub : List α) : List α → Bool
  | [] => sub.isEmpty
  | x :: t => sub.isPrefixOf (x :: t) || listHasRun sub t

/-- Substring containment, `JsString.includes`. -/
def strIncludes (s sub : String) : Bool :=
  listHasRun sub.toList s.toList

/-- Truthiness of an optional string, as JavaScript sees it: `null`,
`undefined` and the empty string are falsy. -/
def truthyStr : Option String → Bool
  | none => false
  | some s => s ≠ ""

/-- Truthiness of an optional number: `null`, `undefined` and `0` are falsy. -/
def truthyNat : Option Nat → Bool
  | none => false
  | some n => n ≠ 0

/-- JavaScript `Array.prototype.slice(-n)`: the last `n` elements. -/
def lastN (n : Nat) (l : List α) : List α :=
  l.drop (l.length - n)

/-- `String.prototype.toLowerCase` (character-wise). -/
def strToLower (s : String) : String :=
  (s.toList.map Char.toLower).asString

/-- `String.prototype.trim`. -/
def jsTrim (s : String) : String :=
  ((s.toList.dropWhile Char.isWhitespace).reverse.dropWhile
    Char.isWhitespace).reverse.asString

/-- `String.prototype.startsWith`. -/
def jsStartsWith (s pre : String) : Bool :=
  pre.toList.isPrefixOf s.toList

/-- `Array.prototype.join(sep)`. -/
def joinSep (sep : String) : List String → String
  | [] => ""
  | [x] => x
  | x :: y :: xs => x ++ sep ++ joinSep sep (y :: xs)

/-- `String.prototype.substring(0, n)`. -/
def strTake (n : Nat) (s : String) : String :=
  (s.toList.take n).asString

/-- `String.prototype.split(c)` for a one-character separator. -/
def splitOnCharAux (c : Char) : List Char → List Char → List String
  | [], cur => [cur.reverse.asString]
  | x :: rest, cur =>
      if x = c then cur.reverse.asString :: splitOnCharAux c rest []
      else splitOnCharAux c rest (x :: cur)

/-- See `splitOnCharAux`. -/
def splitOnChar (c : Char) (s : String) : List String :=
  splitOnCharAux c s.toList []

/-- `String.prototype.split("\n")`. -/
def splitLines (s : String) : List String :=
  splitOnChar (Char.ofNat 10) s

/-- JavaScript `String.prototype.substring(length - n)` analogue. -/
def strLastN (n : Nat) (s : String) : String :=
  (lastN n s.toList).asString

/-! ## A stable descending sort

`Array.prototype.sort` in modern JavaScript engines is stable; the
source sorts with the comparator `(a, b) => b.score - a.score`, i.e. a
stable sort by descending score.  We model it by an insertion sort that
inserts each element before the first element of not-greater key, which
is exactly the stable descending sort. -/

/-- Insert `x` into `l`, keeping every element of strictly greater key in
front of it.  Elements of equal key already in `l` come later in the
original array order, so `x` goes before them: stability. -/
def insertDescBy (f : α → ℚ) (x : α) : List α → List α
  | [] => [x]
  | y :: ys => if f x < f y then y :: insertDescBy f x ys else x :: y :: ys

/-- Stable sort by descending `f`-key. -/
def sortDescBy (f : α → ℚ) : List α → List α
  | [] => []
  | x :: xs => insertDescBy f x (sortDescBy f xs)

/-! ## Hybrid retrieval core (`src/rag/hybridSearch.js`)

The two per-modality searches (`bm25Index.search` and
`generateEmbedding` composed with `searchIndex`) are external
capabilities of the module and enter the model as function parameters;
everything else is translated line by line. -/

/-- Chunk metadata carried by a search result. -/
structure Metadata where
  filePath : String
  fileName : String
  content : String
deriving DecidableEq

/-- A per-modality search result `{id, score, metadata}`. -/
structure SearchHit where
  id : String
  score : ℚ
  metadata : Option Metadata
deriving DecidableEq

/-- An entry of the `combinedScores` map in `mergeResults`. -/
structure MergedEntry where
  id : String
  metadata : Option Metadata
  bm25Score : ℚ
  vectorScore : ℚ
  combinedScore : ℚ
deriving DecidableEq

/-- Fresh map entry for an id seen for the first time. -/
def freshEntry (hit : SearchHit) : MergedEntry :=
  ⟨hit.id, hit.metadata, 0, 0, 0⟩

/-- Processing one BM25 hit: insert-if-absent, then
`entry.bm25Score = score; entry.metadata = metadata`.  The insertion
order of a JavaScript `Map` is modelled by an append-only list. -/
def processBM25Hit (acc : List MergedEntry) (hit : SearchHit) :
    List MergedEntry :=
  let base := if acc.any (fun m => m.id = hit.id) then acc
              else acc ++ [freshEntry hit]
  base.map (fun m =>
    if m.id = hit.id then
      { m with bm25Score := hit.score, metadata := hit.metadata }
    else m)

/-- Processing one vector hit: insert-if-absent, then
`entry.vectorScore = score; entry.metadata = metadata || entry.metadata`. -/
def processVectorHit (acc : List MergedEntry) (hit : SearchHit) :
    List MergedEntry :=
  let base := if acc.any (fun m => m.id = hit.id) then acc
              else acc ++ [freshEntry hit]
  base.map (fun m =>
    if m.id = hit.id then
      { m with vectorScore := hit.score,
               metadata := match hit.metadata with
                           | some md => some md
                           | none => m.metadata }
    else m)

/-- The `combinedScores` map after both passes and the combined-score
computation, in map insertion order (BM25 hits first, then the vector
hits not already present). -/
def mergeEntries (bm25Results vectorResults : List SearchHit)
    (bm25Weight vectorWeight : ℚ) : List MergedEntry :=
  (vectorResults.foldl processVectorHit
      (bm25Results.foldl processBM25Hit [])).map
    (fun m => { m with
      combinedScore := m.bm25Score * bm25Weight + m.vectorScore * vectorWeight })

/-- `mergeResults` of the source: build the combined map, compute
combined scores, sort by combined score descending (stable). -/
def mergeResults (bm25Results vectorResults : List SearchHit)
    (bm25Weight vectorWeight : ℚ) : List MergedEntry :=
  sortDescBy (fun m => m.combinedScore)
    (mergeEntries bm25Results vectorResults bm25Weight vectorWeight)

/-- `hybridSearch` of the source with explicit index sizes and search
capabilities.  `k * 3` is the default `expandedK`; weights are
normalized by their sum before being passed to `mergeResults`, and the
final list is clamped to `safeK = min k (max vectorCount bm25Count)`. -/
def hybridSearch (query : String) (vectorCount bm25Count : Nat)
    (bm25Weight vectorWeight : ℚ) (k : Nat)
    (bm25Search : String → Nat → List SearchHit)
    (vectorSearch : String → Nat → List SearchHit) : List MergedEntry :=
  let maxAvailable := max vectorCount bm25Count
  let safeExpandedK := min (k * 3) maxAvailable
  let safeK := min k maxAvailable
  let totalWeight := bm25Weight + vectorWeight
  let normalizedBM25Weight := bm25Weight / totalWeight
  let normalizedVectorWeight := vectorWeight / totalWeight
  let bm25Results := bm25Search query safeExpandedK
  let vectorResults := vectorSearch query safeExpandedK
  (mergeResults bm25Results vectorResults
    normalizedBM25Weight normalizedVectorWeight).take safeK

/-! ### Root-cause heuristic -/

/-- The character class `\w` of the source regexes. -/
def isWordChar (c : Char) : Bool := c.isAlpha || c.isDigit || c = '_'

/-- Maximal runs of word characters.  `/\b\w\x7b3,\x7d\b/g` matches
exactly the maximal word-character runs of length at least 3, because
the greedy quantifier always extends to the end of a run. -/
def wordRunsAux : List Char → List Char → List (List Char)
  | [], cur => if cur.isEmpty then [] else [cur.reverse]
  | c :: rest, cur =>
      if isWordChar c then wordRunsAux rest (c :: cur)
      else if cur.isEmpty then wordRunsAux rest []
      else cur.reverse :: wordRunsAux rest []

/-- All maximal word-character runs of a string. -/
def wordRuns (s : String) : List String :=
  (wordRunsAux s.toList []).map List.asString

/-- `errorLog.match(/\b\w\x7b3,\x7d\b/g)`: every occurrence is reported,
duplicates included. -/
def errorTermsOf (errorLog : String) : List String :=
  (wordRuns errorLog).filter (fun t => 3 ≤ t.length)

/-- The hard-coded common-words stoplist (verbatim, including the
duplicated entry). -/
def commonWords : List String :=
  ["the", "and", "that", "have", "for", "not", "with", "you", "this", "but",
   "his", "from", "they", "she", "will", "would", "there", "their", "what",
   "about", "which", "when", "make", "like", "time", "just", "him", "know",
   "take", "people", "into", "year", "your", "good", "some", "could", "them",
   "see", "other", "than", "then", "now", "look", "only", "come", "its", "over",
   "think", "also", "back", "after", "use", "two", "how", "our", "work", "first",
   "well", "way", "even", "new", "want", "because", "any", "these", "give", "day",
   "most", "cant", "cant", "using", "does", "where", "been", "should", "those"]

/-- `new RegExp("\\b" ++ term ++ "\\b", "i").test(content)` for a term
made of word characters: the term must occur as a whole word, i.e. equal
some maximal word run of the content, case-insensitively. -/
def wholeWordIn (term content : String) : Bool :=
  (wordRuns content).any (fun r => strToLower r = strToLower term)

/-- The loop counting how many significant error terms appear in the
file content.  The term list is not deduplicated, so repeated terms are
counted once per occurrence in the error log. -/
def countTermMatches (errorLog content : String) : Nat :=
  (errorTermsOf errorLog).foldl
    (fun n term =>
      if 3 < term.length ∧ ¬ commonWords.contains (strToLower term) ∧
          wholeWordIn term content then n + 1 else n) 0

/-- The character class of the file-path pattern
`/([a-zA-Z0-9_-]+\.(?:js|py|java|rb|go|cpp|c|h|ts|tsx|jsx|php|html|css))/g`. -/
def isFileNameChar (c : Char) : Bool :=
  c.isAlpha || c.isDigit || c = '_' || c = '-'

/-- The extension alternation, in source order.  Alternation in a
JavaScript regex is ordered and has no trailing word-boundary here, so
e.g. `c` wins over `css` as a prefix. -/
def fileExtAlternatives : List (List Char) :=
  ["js", "py", "java", "rb", "go", "cpp", "c", "h", "ts", "tsx", "jsx",
   "php", "html", "css"].map String.toList

/-- First alternative that is a prefix of `l`. -/
def extFirst (l : List Char) : Option (List Char) :=
  fileExtAlternatives.find? (fun e => e.isPrefixOf l)

/-- Global scan of the file-path pattern: at each position, try the
greedy name run followed by a dot and an extension alternative; on a
match, continue after it, otherwise advance one character — exactly the
behaviour of repeated `exec` with the `g` flag. -/
def scanFilePathsAux : Nat → List Char → List String
  | 0, _ => []
  | _ + 1, [] => []
  | fuel + 1, c :: rest =>
      let l := c :: rest
      let run := l.takeWhile isFileNameChar
      match run, l.drop run.length with
      | _ :: _, '.' :: tail =>
          match extFirst tail with
          | some ext =>
              (run ++ '.' :: ext).asString ::
                scanFilePathsAux fuel (tail.drop ext.length)
          | none => scanFilePathsAux fuel rest
      | _, _ => scanFilePathsAux fuel rest

/-- The `mentionedFiles` set of `identifyRootCauseFile` (only membership
is ever queried, so the underlying list stands in for the `Set`). -/
def mentionedFiles (errorLog : String) : List String :=
  scanFilePathsAux errorLog.toList.length errorLog.toList

/-- A search result together with its root-cause score. -/
structure ScoredResult extends MergedEntry where
  rootCauseScore : ℚ
deriving DecidableEq

/-- Per-result scoring of `identifyRootCauseFile`: double the combined
score when the metadata file name is among the extracted mentioned
files, then multiply by `1 + matchCount * 0.1` when any significant
error term occurs in the content. -/
def scoreResult (errorLog : String) (r : MergedEntry) : ScoredResult :=
  let fileName := (r.metadata.map (fun md => md.fileName)).getD ""
  let fileContent := (r.metadata.map (fun md => md.content)).getD ""
  let s₁ : ℚ :=
    if fileName ≠ "" ∧ (mentionedFiles errorLog).contains fileName then
      r.combinedScore * 2
    else r.combinedScore
  let matchCount := countTermMatches errorLog fileContent
  let s₂ : ℚ := if 0 < matchCount then s₁ * (1 + (matchCount : ℚ) * (1 / 10))
                else s₁
  ⟨r, s₂⟩

/-- `identifyRootCauseFile`: null on an empty result list, otherwise the
first element after the stable descending sort by root-cause score. -/
def identifyRootCauseFile (searchResults : List MergedEntry)
    (errorLog : String) : Option ScoredResult :=
  match searchResults with
  | [] => none
  | _ =>
      (sortDescBy (fun s => s.rootCauseScore)
        (searchResults.map (scoreResult errorLog))).head?

/-! ## Error evolution engine (`agent_prompt.js`) -/

/-- A structured error parsed from command output
(`parseErrorFromOutput`).  The `timestamp` field of the source record is
dropped, per the modelling conventions. -/
structure ParsedError where
  type : String
  message : String
  raw_output : String
  file_refs : List String
  line_refs : List Nat
deriving DecidableEq

/-- The priority-ordered error-pattern table.  Every pattern has the
shape `<literal>: (.+)`; the pairs are listed in source order. -/
def errorPatterns : List (String × String) :=
  [("ModuleNotFoundError", "ModuleNotFoundError: "),
   ("KeyError", "KeyError: "),
   ("FileNotFoundError", "FileNotFoundError: "),
   ("SyntaxError", "SyntaxError: "),
   ("ImportError", "ImportError: "),
   ("AttributeError", "AttributeError: "),
   ("ValueError", "ValueError: "),
   ("TypeError", "TypeError: "),
   ("Error", "Error: "),
   ("Exception", "Exception: ")]

/-- Leftmost match of `/<lit>(.+)/`: at the first position where the
literal occurs followed by at least one non-newline character, capture
greedily to the end of the line. -/
def firstCaptureAux (lit : List Char) : List Char → Option (List Char)
  | [] => none
  | c :: rest =>
      if lit.isPrefixOf (c :: rest) then
        let cap := ((c :: rest).drop lit.length).takeWhile (fun ch => ch ≠ '\n')
        if cap.isEmpty then firstCaptureAux lit rest else some cap
      else firstCaptureAux lit rest

/-- `output.match(/<lit>: (.+)/)`, returning the capture group. -/
def matchCapture (lit out : String) : Option String :=
  (firstCaptureAux lit.toList out.toList).map List.asString

/-- First-occurrence deduplication, the semantics of
`[...new Set(xs)]`. -/
def firstDedupAux [DecidableEq α] (seen : List α) : List α → List α
  | [] => []
  | x :: xs =>
      if seen.contains x then firstDedupAux seen xs
      else x :: firstDedupAux (x :: seen) xs

/-- See `firstDedupAux`. -/
def firstDedup [DecidableEq α] (l : List α) : List α := firstDedupAux [] l

/-- Global scan for `/File "([^"]+)"/g`. -/
def extractFileRefsAux : Nat → List Char → List String
  | 0, _ => []
  | _ + 1, [] => []
  | fuel + 1, c :: rest =>
      let l := c :: rest
      if ("File \"".toList).isPrefixOf l then
        let after := l.drop 6
        let cap := after.takeWhile (fun ch => ch ≠ '"')
        match cap, after.drop cap.length with
        | _ :: _, '"' :: tail => cap.asString :: extractFileRefsAux fuel tail
        | _, _ => extractFileRefsAux fuel rest
      else extractFileRefsAux fuel rest

/-- `extractFileReferences`: the deduplicated `File "PATH"` captures. -/
def extractFileReferences (output : String) : List String :=
  firstDedup (extractFileRefsAux output.toList.length output.toList)

/-- Numeric value of a digit run. -/
def natOfDigits (l : List Char) : Nat :=
  l.foldl (fun n c => n * 10 + (c.toNat - 48)) 0

/-- Global scan for `/line (\d+)/g`. -/
def extractLineNumsAux : Nat → List Char → List Nat
  | 0, _ => []
  | _ + 1, [] => []
  | fuel + 1, c :: rest =>
      let l := c :: rest
      if ("line ".toList).isPrefixOf l then
        let after := l.drop 5
        let digits := after.takeWhile Char.isDigit
        match digits with
        | _ :: _ =>
            natOfDigits digits :: extractLineNumsAux fuel (after.drop digits.length)
        | [] => extractLineNumsAux fuel rest
      else extractLineNumsAux fuel rest

/-- `extractLineNumbers`: the deduplicated `line N` captures. -/
def extractLineNumbers (output : String) : List Nat :=
  firstDedup (extractLineNumsAux output.toList.length output.toList)

/-- `parseErrorFromOutput`: first pattern of the table that matches
anywhere in the output wins; otherwise the `command not found` /
`not recognized` fallback; otherwise null.  The guard
`!output` makes the empty string parse to null. -/
def parseErrorFromOutput (output : String) : Option ParsedError :=
  if output = "" then none
  else
    match errorPatterns.findSome?
        (fun p => (matchCapture p.2 output).map (fun cap => (p.1, cap))) with
    | some (ty, cap) =>
        some ⟨ty, jsTrim cap, output, extractFileReferences output,
          extractLineNumbers output⟩
    | none =>
        if strIncludes output "command not found" ||
            strIncludes output "not recognized" then
          some ⟨"CommandNotFound", jsTrim output, output, [], []⟩
        else none

/-- The currently blocking error: a parsed error plus bookkeeping.  The
install branch of `updateErrorState` does not set `last_seen_step`,
hence the `Option`. -/
structure BlockingError where
  err : ParsedError
  first_seen_step : Nat
  last_seen_step : Option Nat
  status : String
deriving DecidableEq

/-- An archived (solved) blocking error.  `resolution_step` is an `ℤ`
because the source computes `currentStep - 1` on a JavaScript number. -/
structure SolvedIssue where
  err : ParsedError
  first_seen_step : Nat
  last_seen_step : Option Nat
  resolution_step : Int
  status : String
deriving DecidableEq

/-- One entry of the `error_progression` ledger. -/
structure ProgressionEntry where
  step : Nat
  error_detected : Option ParsedError
  previous_error : Option BlockingError
deriving DecidableEq

/-- The result record of `compareErrors`. -/
structure ErrorComparison where
  is_new_error : Bool
  is_same_error : Bool
  is_progression : Bool
  resolution_status : String
deriving DecidableEq

/-- `compareErrors(previousError, currentError)`.  The previous error is
the blocking record (whose spread carries `type`, `message` and
`file_refs`); the current one is freshly parsed. -/
def compareErrors (previousError : Option BlockingError)
    (currentError : Option ParsedError) : ErrorComparison :=
  match previousError, currentError with
  | none, none => ⟨false, false, false, "resolved"⟩
  | none, some _ => ⟨true, false, false, "new"⟩
  | some _, none => ⟨false, false, false, "resolved"⟩
  | some prev, some cur =>
      let sameType : Bool := prev.err.type = cur.type
      let sameMessage : Bool := prev.err.message = cur.message
      let sameFiles : Bool := prev.err.file_refs = cur.file_refs
      ⟨!sameType && !sameFiles,
       sameType && sameMessage && sameFiles,
       sameFiles && !sameType,
       if sameType && sameMessage then "persisted"
       else if sameFiles then "progressed" else "evolved"⟩

/-! ## Agent context data model (`agent_prompt.js`) -/

/-- Structured change of a proposed patch. -/
structure PatchChange where
  line_number : Nat
  action : String
  old_content : Option String
  new_content : Option String
deriving DecidableEq

/-- The `patch_content` parameter: either a raw unified-diff string or a
structured change list. -/
inductive PatchContent where
  | diffText (s : String)
  | structured (changes : List PatchChange)
deriving DecidableEq

/-- Union of all tool parameter fields; a missing field is `none`, like
an absent JavaScript object property. -/
structure ToolParams where
  command_description : Option String := none
  command_string : Option String := none
  command_to_propose : Option String := none
  conclusion_message_for_user : Option String := none
  directory_path : Option String := none
  end_line : Option Nat := none
  file_extensions : Option (List String) := none
  file_path : Option String := none
  final_status : Option String := none
  include_hidden : Option Bool := none
  max_depth : Option Nat := none
  max_results : Option Nat := none
  patch_content : Option PatchContent := none
  patch_description : Option String := none
  question_for_user : Option String := none
  search_pattern : Option String := none
  start_line : Option Nat := none
deriving DecidableEq

/-- The payload fields a tool result can carry (beyond presentation-only
fields such as rendered listings, which no claim mentions). -/
structure ToolResultBase where
  status : String
  message : Option String := none
  file_path : Option String := none
  content : Option String := none
  note : Option String := none
  cached : Bool := false
  lines_read : Option (Nat × Nat) := none
  total_lines : Option Nat := none
  command : Option String := none
  stdout : Option String := none
  stderr : Option String := none
  exit_code : Option Nat := none
  final_status : Option String := none
  user_confirmation : Option Bool := none
  user_response : Option String := none
  patch_applied : Option Bool := none
  source : Option String := none
  duplicate_step : Option Nat := none
deriving DecidableEq

/-- A tool result; a `skipped` result additionally carries the result of
the duplicated action, which is itself a tool result. -/
inductive ToolResult where
  | mk (base : ToolResultBase) (previous_result : Option ToolResult)

/-- Base record of a tool result. -/
def ToolResult.base : ToolResult → ToolResultBase
  | ⟨b, _⟩ => b

/-- The `previous_result` field of a skipped result. -/
def ToolResult.prev : ToolResult → Option ToolResult
  | ⟨_, p⟩ => p

/-- The `status` field. -/
def ToolResult.status (r : ToolResult) : String := r.base.status

/-- A result with no `previous_result` field. -/
def ToolResult.ofBase (b : ToolResultBase) : ToolResult := ⟨b, none⟩

/-- Step identifiers: ordinary numbered steps, plus the literal string
`"summary"` used by the pseudo-step the optimizer fabricates. -/
inductive StepId where
  | num (n : Nat)
  | tag (s : String)
deriving DecidableEq

/-- Rendering of a step identifier in a template literal. -/
def StepId.show : StepId → String
  | .num n => toString n
  | .tag s => s

/-- The action recorded with a step.  The orchestrator stores both
`tool_used` and `tool_to_use`; various readers try one then the other. -/
structure ActionTaken where
  tool_used : Option String := none
  tool_to_use : Option String := none
  parameters : ToolParams := {}

/-- One entry of `session_history`. -/
structure Step where
  step : StepId
  thought : String := ""
  summary : Option String := none
  action_taken : ActionTaken
  result : ToolResult

/-- One entry of the `recent_actions` deduplication window. -/
structure RecentAction where
  signature : String
  step : Nat
  tool : Option String
  parameters : ToolParams
  result : ToolResult

/-- Cached file-structure scan (presentation data such as the rendered
tree is kept as pre-rendered lines). -/
structure FileStructure where
  max_depth : Nat
  included_hidden : Bool
  total_files : Nat := 0
  relevant_files : Nat := 0
  flat_files : List String := []
  tree_lines : List String := []
deriving DecidableEq

/-- A cached search hit line. -/
structure SearchResultLine where
  file : String
  line_number : Nat
  line_content : String
deriving DecidableEq

/-- A `search_results` cache entry. -/
structure SearchCacheEntry where
  search_pattern : String
  file_extensions : List String
  max_results : Nat
  results : List SearchResultLine
  files_searched : Nat
  searched_files_metadata : List (String × Nat × Nat)
  timestamp : Nat
deriving DecidableEq

/-- The knowledge base.  `error_analysis_notes` entries are kept as
strings (note records are only ever concatenated or counted). -/
structure KnowledgeBase where
  files_read : List (String × String) := []
  file_structure : Option FileStructure := none
  search_results : List (String × SearchCacheEntry) := []
  file_metadata : List (String × Nat × Nat) := []
  error_analysis_notes : List String := []

/-- The `file_state` resolution table. -/
structure FileState where
  discovered_files : List String := []
  primary_error_file : Option String := none
  file_mappings : List (String × String) := []
  working_directory : String := ""
deriving DecidableEq

/-- Session constraints. -/
structure Constraints where
  max_session_steps : Nat := 20
  allowed_file_modifications : Bool := true
  allowed_command_execution : Bool := true
deriving DecidableEq

/-- The initial command capture. -/
structure CommandDetails where
  command_string : String := ""
  stdout : String := ""
  stderr : String := ""
  exit_code : Nat := 0
deriving DecidableEq

/-- The authoritative agent context.  `available_tools` keeps only the
tool names; descriptions and parameter schemas are presentation data no
claim mentions. -/
structure AgentContext where
  initial_user_request : String := ""
  initial_command_run : CommandDetails := {}
  current_working_directory : String := ""
  session_history : List Step := []
  solved_issues : List SolvedIssue := []
  current_blocking_error : Option BlockingError := none
  error_progression : List ProgressionEntry := []
  knowledge_base : KnowledgeBase := {}
  file_state : Option FileState := none
  recent_actions : List RecentAction := []
  available_tools : List String := []
  constraints : Constraints := {}

/-- `updateErrorState(context, newErrorOutput, currentStep)`.  The
progression entry is always appended; then either the resolved branch,
the install branch (`is_new_error || is_progression`), or the same-error
branch fires.  `prev?.first_seen_step || currentStep` is JavaScript
falsy-or: a stored `first_seen_step` of `0` is replaced. -/
def updateErrorState (context : AgentContext) (newErrorOutput : String)
    (currentStep : Nat) : AgentContext :=
  let previousError := context.current_blocking_error
  let parsedError := parseErrorFromOutput newErrorOutput
  let context := { context with
    error_progression := context.error_progression ++
      [⟨currentStep, parsedError, previousError⟩] }
  match parsedError with
  | none =>
      match previousError with
      | some prev =>
          { context with
            solved_issues := context.solved_issues ++
              [⟨prev.err, prev.first_seen_step, prev.last_seen_step,
                (currentStep : Int), "resolved"⟩],
            current_blocking_error := none }
      | none => context
  | some parsed =>
      let cmp := compareErrors previousError (some parsed)
      if cmp.is_new_error || cmp.is_progression then
        { context with
          solved_issues := context.solved_issues ++
            (match previousError with
             | some prev =>
                 [⟨prev.err, prev.first_seen_step, prev.last_seen_step,
                   (currentStep : Int) - 1, "resolved"⟩]
             | none => []),
          current_blocking_error := some ⟨parsed, currentStep, none, "active"⟩ }
      else if cmp.is_same_error then
        { context with
          current_blocking_error := some ⟨parsed,
            (match previousError with
             | some prev =>
                 if prev.first_seen_step = 0 then currentStep
                 else prev.first_seen_step
             | none => currentStep),
            some currentStep, "active"⟩ }
      else context

/-! ## Action signatures and deduplication (`agent_prompt.js`) -/

/-- JavaScript `a || b` on optional strings. -/
def jsStrOr (a b : Option String) : Option String :=
  if truthyStr a then a else b

/-- Template-literal rendering of a possibly `undefined` string. -/
def jsShow : Option String → String
  | some s => s
  | none => "undefined"

/-- Split `s` at the first occurrence of `target`. -/
def splitAtFirst (target : List Char) : List Char → Option (List Char × List Char)
  | [] => if target.isEmpty then some ([], []) else none
  | c :: rest =>
      if target.isPrefixOf (c :: rest) then
        some ([], (c :: rest).drop target.length)
      else (splitAtFirst target rest).map (fun pr => (c :: pr.1, pr.2))

/-- `String.prototype.replace` with a string pattern: first occurrence
only. -/
def replaceFirst (s target repl : String) : String :=
  match splitAtFirst target.toList s.toList with
  | some (pre, post) => (pre ++ repl.toList ++ post).asString
  | none => s

/-- JSON rendering of a string value (the parameters the agent passes
never contain characters needing escapes). -/
def renderStr (s : String) : String := "\"" ++ s ++ "\""

/-- JSON rendering of a string list. -/
def renderStrList (l : List String) : String :=
  "[" ++ joinSep "," (l.map renderStr) ++ "]"

/-- JSON rendering of the `patch_content` value under the sorted-keys
replacer array: a plain diff string renders as a string, while the keys
of a structured object are not in the replacer allow-list, so the nested
object serializes as an empty object. -/
def renderPatchContent : PatchContent → String
  | .diffText s => renderStr s
  | .structured _ => "\x7b\x7d"

/-- The present parameter fields with rendered values, in the sorted key
order that `JSON.stringify(keyParams, Object.keys(keyParams).sort())`
produces. -/
def sigPairs (p : ToolParams) : List (String × String) :=
  ((p.command_description.map (fun v => ("command_description", renderStr v))).toList ++
   (p.command_string.map (fun v => ("command_string", renderStr v))).toList ++
   (p.command_to_propose.map (fun v => ("command_to_propose", renderStr v))).toList ++
   (p.conclusion_message_for_user.map
     (fun v => ("conclusion_message_for_user", renderStr v))).toList ++
   (p.directory_path.map (fun v => ("directory_path", renderStr v))).toList ++
   (p.end_line.map (fun v => ("end_line", toString v))).toList ++
   (p.file_extensions.map (fun v => ("file_extensions", renderStrList v))).toList ++
   (p.file_path.map (fun v => ("file_path", renderStr v))).toList ++
   (p.final_status.map (fun v => ("final_status", renderStr v))).toList ++
   (p.include_hidden.map
     (fun v => ("include_hidden", if v then "true" else "false"))).toList ++
   (p.max_depth.map (fun v => ("max_depth", toString v))).toList ++
   (p.max_results.map (fun v => ("max_results", toString v))).toList ++
   (p.patch_content.map (fun v => ("patch_content", renderPatchContent v))).toList ++
   (p.patch_description.map (fun v => ("patch_description", renderStr v))).toList ++
   (p.question_for_user.map (fun v => ("question_for_user", renderStr v))).toList ++
   (p.search_pattern.map (fun v => ("search_pattern", renderStr v))).toList ++
   (p.start_line.map (fun v => ("start_line", toString v))).toList)

/-- `JSON.stringify(keyParams, Object.keys(keyParams).sort())`. -/
def stringifySorted (p : ToolParams) : String :=
  "\x7b" ++
    joinSep ","
      (sigPairs p |>.map (fun kv => renderStr kv.1 ++ ":" ++ kv.2)) ++
  "\x7d"

/-- `createActionSignature(toolName, parameters)`: path parameters are
normalized by replacing the first occurrence of the process working
directory with `"."`, then the sorted-key serialization is prefixed with
the tool name. -/
def createActionSignature (processCwd toolName : String) (p : ToolParams) :
    String :=
  let keyParams := { p with
    file_path := p.file_path.map (fun fp => replaceFirst fp processCwd "."),
    directory_path :=
      p.directory_path.map (fun dp => replaceFirst dp processCwd ".") }
  toolName ++ ":" ++ stringifySorted keyParams

/-- The record returned by `shouldSkipAction`. -/
structure SkipCheck where
  should_skip : Bool
  duplicate_step : Option Nat
  reason : Option String

/-- `shouldSkipAction(toolName, parameters, context)`: look for a recent
action with the same signature whose step is within the last 3 steps.
The comparison `action.step > session_history.length - 3` is on
JavaScript numbers, so it is taken in `ℤ`. -/
def shouldSkipAction (processCwd toolName : String) (p : ToolParams)
    (context : AgentContext) : SkipCheck :=
  let actionSignature := createActionSignature processCwd toolName p
  let recentDuplicate := context.recent_actions.find? (fun action =>
    decide (action.signature = actionSignature) &&
    decide ((context.session_history.length : ℤ) - 3 < (action.step : ℤ)))
  ⟨recentDuplicate.isSome,
   recentDuplicate.map (fun a => a.step),
   recentDuplicate.map
     (fun a => "Identical action performed in step " ++ toString a.step)⟩

/-- Ordered-map update-or-append, the effect of `obj[k] = v`. -/
def assocSet (l : List (String × String)) (k v : String) :
    List (String × String) :=
  if l.any (fun kv => kv.1 = k) then
    l.map (fun kv => if kv.1 = k then (k, v) else kv)
  else l ++ [(k, v)]

/-- `updateAgentContext(context, step, thought, actionTaken, result)`:
append the step, record the recent action (window of 10), and cache a
successfully read file. -/
def updateAgentContext (processCwd : String) (context : AgentContext)
    (step : Nat) (thought : String) (actionTaken : ActionTaken)
    (result : ToolResult) : AgentContext :=
  let actionSignature := createActionSignature processCwd
    (jsShow (jsStrOr actionTaken.tool_to_use actionTaken.tool_used))
    actionTaken.parameters
  let recent := context.recent_actions ++
    [⟨actionSignature, step,
      jsStrOr actionTaken.tool_to_use actionTaken.tool_used,
      actionTaken.parameters, result⟩]
  let recent := if 10 < recent.length then lastN 10 recent else recent
  let kb :=
    if result.status = "success" ∧
        (actionTaken.tool_used = some "read_file_content" ∨
         actionTaken.tool_to_use = some "read_file_content") ∧
        truthyStr result.base.content then
      { context.knowledge_base with
        files_read := assocSet context.knowledge_base.files_read
          (jsShow result.base.file_path) ((result.base.content).getD "") }
    else context.knowledge_base
  { context with
    session_history := context.session_history ++
      [⟨.num step, thought, none, actionTaken, result⟩],
    recent_actions := recent,
    knowledge_base := kb }

/-! ## Context optimizer and termination policy (`agent_prompt.js`) -/

/-- Whether a step used the given tool (`tool_used` or `tool_to_use`). -/
def stepToolIs (st : Step) (name : String) : Bool :=
  st.action_taken.tool_used == some name ||
  st.action_taken.tool_to_use == some name

/-- `step.step > z` on a JavaScript number: comparing the string
`"summary"` with a number is `NaN`-false. -/
def stepNumGt (st : Step) (z : ℤ) : Bool :=
  match st.step with
  | .num n => decide (z < (n : ℤ))
  | .tag _ => false

/-- `path.split("/").pop()`. -/
def lastPathComponent (path : String) : String :=
  (splitOnChar (Char.ofNat 47) path).getLastD ""

/-- The focus-mode relevance test on a cached file path:
`path.includes(ref) || ref.includes(path.split("/").pop())`. -/
def fileRelevantToRefs (refs : List String) (path : String) : Bool :=
  refs.any (fun ref =>
    strIncludes path ref || strIncludes ref (lastPathComponent path))

/-- Focus/drift truncation of a cached file content (rule 2 of the
optimizer): contents longer than 2000 characters keep only the first and
last 1000 around a marker. -/
def truncContent (content : String) : String :=
  if 2000 < content.length then
    strTake 1000 content ++ "\n... [content truncated] ...\n" ++
      strLastN 1000 content
  else content

/-- The summary pseudo-step fabricated in drift mode. -/
def summaryStep (older : List Step) : Step :=
  let summary := "Previous " ++ toString older.length ++ " steps: " ++
    joinSep ", " (older.map (fun st =>
      "Step " ++ st.step.show ++ ": " ++
        jsShow (jsStrOr st.action_taken.tool_used st.action_taken.tool_to_use)
        ++ " - " ++ st.result.status))
  ⟨.tag "summary", "", some summary, ⟨some "summary", none, {}⟩,
   ToolResult.ofBase { status := "summarized" }⟩

/-- `optimizeAgentContext(agentContext)`: the source first takes
`JSON.parse(JSON.stringify(agentContext))` — a deep copy, which on this
plain-data record is the value itself — and then mutates only that copy.
The pipeline below is that sequence of mutations, as a pure function of
the copy. -/
def optimizeAgentContext (agentContext : AgentContext) : AgentContext :=
  let context := agentContext
  let context : AgentContext :=
    match context.current_blocking_error with
    | some err =>
        let relevantSteps := context.session_history.filter (fun st =>
          stepNumGt st ((context.session_history.length : ℤ) - 5) ||
          stepToolIs st "propose_code_patch" ||
          stepToolIs st "propose_fix_by_command")
        let history :=
          if relevantSteps.length < 3 ∧ 3 ≤ context.session_history.length then
            lastN 3 context.session_history
          else relevantSteps
        let relevantFiles := err.err.file_refs
        let files_read :=
          if relevantFiles ≠ [] then
            context.knowledge_base.files_read.filter
              (fun (kv : String × String) =>
                fileRelevantToRefs relevantFiles kv.1)
          else context.knowledge_base.files_read
        let recent :=
          if 5 < context.recent_actions.length then
            lastN 5 context.recent_actions
          else context.recent_actions
        { context with
          session_history := history,
          recent_actions := recent,
          knowledge_base := { context.knowledge_base with
            files_read := files_read } }
    | none =>
        if 5 < context.session_history.length then
          let recent := lastN 3 context.session_history
          let older := context.session_history.take
            (context.session_history.length - 3)
          { context with session_history := summaryStep older :: recent }
        else context
  let context : AgentContext := { context with
    knowledge_base := { context.knowledge_base with
      files_read := context.knowledge_base.files_read.map
        (fun (kv : String × String) => (kv.1, truncContent kv.2)) } }
  let context : AgentContext :=
    if 3 < context.knowledge_base.error_analysis_notes.length then
      let consolidated :=
        joinSep "\n\n" context.knowledge_base.error_analysis_notes
      { context with
        knowledge_base := { context.knowledge_base with
          error_analysis_notes :=
            ["Consolidated analysis: " ++ strTake 1500 consolidated ++
              (if 1500 < consolidated.length then "..." else "")] } }
    else context
  let context : AgentContext :=
    if 10 < context.error_progression.length then
      { context with error_progression := lastN 10 context.error_progression }
    else context
  { context with available_tools := context.available_tools.map id }

/-- The caller-side view of `optimizeAgentContext`: the authoritative
context the caller keeps, and the optimized deep copy it receives for
prompt building.  Every mutation of the source acts on the copy. -/
def optimizeAgentContextMut (agentContext : AgentContext) :
    AgentContext × AgentContext :=
  (agentContext, optimizeAgentContext agentContext)

/-- The record returned by `shouldTerminateSession`. -/
structure TerminationCheck where
  should_terminate : Bool
  reason : Option String
deriving DecidableEq

/-- `shouldTerminateSession(agentContext)`: the step cap
(`max_session_steps || 20`) and the three-consecutive-failures rule over
`slice(-3)`. -/
def shouldTerminateSession (agentContext : AgentContext) : TerminationCheck :=
  let maxSteps :=
    if agentContext.constraints.max_session_steps = 0 then 20
    else agentContext.constraints.max_session_steps
  let currentSteps := agentContext.session_history.length
  if maxSteps ≤ currentSteps then
    ⟨true, some ("Maximum session steps (" ++ toString maxSteps ++ ") reached")⟩
  else
    let recentSteps := lastN 3 agentContext.session_history
    let failedSteps := recentSteps.filter
      (fun step => step.result.status == "error")
    if 3 ≤ failedSteps.length then
      ⟨true, some "Multiple consecutive failures detected"⟩
    else ⟨false, none⟩

/-! ## Tool layer (`src/utils/cliTools.js`)

Each tool is a function of its parameters, the external capabilities and
the agent context, returning `Except String ToolResult`: an
`Except.error` is an exception escaping the tool (only `finish_debugging`
lacks an internal `try`/`catch`).  Knowledge-base side effects of tools
(`updateKnowledgeBaseWithNewFiles`, the search-cache write) and
presentation-only payloads (directory listings, tree renders) are not
tracked; no claim mentions them. -/

/-- A directory entry as `readdir` reports it. -/
structure DirEntry where
  name : String
  isDir : Bool
deriving DecidableEq

/-- External capabilities: filesystem, subprocess, user interaction,
diff construction (the `convertToUnifiedDiff`/`generatePatch` helpers
live outside `src/`) and the clock. -/
structure Env where
  disk : String → Option String
  readdir : String → Except String (List DirEntry)
  statMtimeSize : String → Except String (Nat × Nat)
  run : String → Bool × String
  askYesNo : Bool
  askInput : String
  confirmAndApply : Bool
  convertDiff : List PatchChange → Except String String
  fallbackDiff : String
  nowMs : Nat

/-- An apostrophe, kept out of the source text of this file. -/
def apos : String := (Char.ofNat 39).toString

/-- `String.prototype.endsWith`. -/
def jsEndsWith (s suffix : String) : Bool :=
  suffix.toList.reverse.isPrefixOf s.toList.reverse

/-- `path.join` on session-relative paths. -/
def joinPath (dir name : String) : String :=
  if dir = "." then name else dir ++ "/" ++ name

/-- Ascending insertion for the default JavaScript string sort. -/
def insertAscStr (x : String) : List String → List String
  | [] => [x]
  | y :: ys => if x < y then x :: y :: ys else y :: insertAscStr x ys

/-- `Array.prototype.sort()` on strings (lexicographic). -/
def sortStringsAsc : List String → List String
  | [] => []
  | x :: xs => insertAscStr x (sortStringsAsc xs)

/-- `resolveFileWithState(requestedPath, context)`: mapping, as-is
existence, primary error file, first discovered file, identity — in that
order. -/
def resolveFileWithState (requestedPath : String) (env : Env)
    (context : AgentContext) : String :=
  match context.file_state with
  | none => requestedPath
  | some fs =>
      let mapped := (fs.file_mappings.find?
        (fun kv => kv.1 = requestedPath)).map (fun kv => kv.2)
      if truthyStr mapped then mapped.getD requestedPath
      else if (env.disk requestedPath).isSome then requestedPath
      else if truthyStr fs.primary_error_file then
        fs.primary_error_file.getD requestedPath
      else
        match fs.discovered_files with
        | f :: _ => f
        | [] => requestedPath

/-- The record returned by the external `readFileContext` helper. -/
structure FileContextResult where
  content : String
  start : Nat
  finish : Nat
deriving DecidableEq

/-- Modelled from the spec: `readFileContext` is defined in a utils
module that is not under `src/`; the specification says a ranged
`read_file_content` "Returns entire file or inclusive line range", so
the model returns the requested window of lines, clamped to the file. -/
def readFileContext (fileContent : String) (startLine numLines : Nat) :
    FileContextResult :=
  let lines := splitLines fileContent
  let s := max 1 startLine
  let e := min lines.length (s + numLines - 1)
  ⟨joinSep "\n" ((lines.drop (s - 1)).take (e + 1 - s)), s, e⟩

/-- The path `read_file_content` actually checks on disk: the requested
path after file-state resolution. -/
def resolvedReadPath (env : Env) (ctx : AgentContext) (fp : String) :
    String :=
  if ctx.file_state.isSome then resolveFileWithState fp env ctx else fp

/-- `read_file_content(params, context)`: resolve through the file
state, serve a recent unchanged-parameter full read from the
`files_read` cache, check existence, then read the whole file or a line
range. -/
def read_file_content (params : ToolParams) (env : Env)
    (context : AgentContext) : Except String ToolResult :=
  match params.file_path with
  | none =>
      .ok (ToolResult.ofBase {
          status := "error",
          message := some "Failed to read file: missing file path" })
  | some file_path =>
      let resolvedPath := resolvedReadPath env context file_path
      let relativePath := resolvedPath
      let cachedContent := (context.knowledge_base.files_read.find?
        (fun kv => kv.1 = relativePath)).map (fun kv => kv.2)
      let fresh : ToolResult :=
        if (env.disk resolvedPath).isNone then
          ToolResult.ofBase {
              status := "error",
              message := some ("File not found: " ++ file_path) }
        else if truthyNat params.start_line ∨ truthyNat params.end_line then
          let start_line := (params.start_line).getD 1
          let start_line := if start_line = 0 then 1 else start_line
          let numLines := match params.end_line with
            | some e => if e = 0 then 50 else e - start_line + 1
            | none => 50
          let contextResult :=
            readFileContext ((env.disk resolvedPath).getD "") start_line numLines
          ToolResult.ofBase {
              status := "success",
              file_path := some relativePath,
              content := some contextResult.content,
              lines_read := some (contextResult.start, contextResult.finish),
              total_lines := some (splitLines contextResult.content).length }
        else
          let content := (env.disk resolvedPath).getD ""
          let lines := splitLines content
          ToolResult.ofBase {
              status := "success",
              file_path := some relativePath,
              content := some content,
              lines_read := some (1, lines.length),
              total_lines := some lines.length }
      if ¬ truthyNat params.start_line ∧ ¬ truthyNat params.end_line ∧
          truthyStr cachedContent then
        match context.session_history.reverse.find? (fun st =>
            stepToolIs st "read_file_content" &&
            st.action_taken.parameters.file_path == some file_path) with
        | some lastRead =>
            match lastRead.step with
            | .num n =>
                if (context.session_history.length : ℤ) - (n : ℤ) < 3 then
                  let cc := cachedContent.getD ""
                  .ok (ToolResult.ofBase {
                      status := "success",
                      file_path := some relativePath,
                      content := some cc,
                      note := some ("Using cached content from step " ++
                      toString n),
                      cached := true,
                      lines_read := some (1, (splitLines cc).length),
                      total_lines := some (splitLines cc).length })
                else .ok fresh
            | .tag _ => .ok fresh
        | none => .ok fresh
      else .ok fresh

/-- `list_directory_contents(params, context)`: root-listing cache from
the file state, otherwise a `readdir`; the listing payload and the
knowledge-base update are presentation/side effects. -/
def list_directory_contents (params : ToolParams) (env : Env)
    (context : AgentContext) : Except String ToolResult :=
  let directory_path :=
    if truthyStr params.directory_path then (params.directory_path).getD "."
    else "."
  let requestingRootDir :=
    ¬ truthyStr params.directory_path ∨ directory_path = "."
  if requestingRootDir ∧ context.file_state.isSome then
    .ok (ToolResult.ofBase {
        status := "success",
        source := some "cached_from_file_state" })
  else
    match env.readdir directory_path with
    | .error e =>
        .ok (ToolResult.ofBase {
            status := "error",
            message := some ("Failed to list directory contents: " ++ e) })
    | .ok _ => .ok (ToolResult.ofBase { status := "success" })

/-- The substring denylist of `run_diagnostic_command`. -/
def dangerousCommands : List String :=
  ["rm", "del", "format", "mkfs", "dd", "mv", "cp", ">", ">>", "sudo"]

/-- `run_diagnostic_command(params, context)`. -/
def run_diagnostic_command (params : ToolParams) (env : Env)
    (_context : AgentContext) : Except String ToolResult :=
  match params.command_string with
  | none =>
      .ok (ToolResult.ofBase {
          status := "error",
          message := some "Invalid command_string parameter: undefined" })
  | some command_string =>
      if command_string = "" then
        .ok (ToolResult.ofBase {
            status := "error",
            message := some ("Invalid command_string parameter: " ++
            renderStr "") })
      else
        let isDangerous := dangerousCommands.any
          (fun cmd => strIncludes (strToLower command_string) cmd)
        if isDangerous then
          .ok (ToolResult.ofBase {
              status := "error",
              message := some ("Command " ++ apos ++ command_string ++ apos ++
              " appears to be potentially destructive and is not allowed") })
        else
          let result := env.run command_string
          .ok (ToolResult.ofBase {
              status := if result.1 then "success" else "error",
              command := some command_string,
              stdout := some result.2,
              stderr := some (if result.1 then "" else result.2),
              exit_code := some (if result.1 then 0 else 1) })

/-- `propose_code_patch(params, context)`: resolve the target, fail when
it does not exist, build the unified diff (structured changes through
the external converter with its fallback), then ask the user and report
the decision. -/
def propose_code_patch (params : ToolParams) (env : Env)
    (context : AgentContext) : Except String ToolResult :=
  match params.file_path with
  | none =>
      .ok (ToolResult.ofBase {
          status := "error",
          message := some "Failed to apply patch: missing file path" })
  | some file_path =>
      let targetFile :=
        if context.file_state.isSome then
          resolveFileWithState file_path env context
        else file_path
      let resolvedPath := targetFile
      if (env.disk resolvedPath).isNone then
        .ok (ToolResult.ofBase {
            status := "error",
            message := some ("Cannot patch file: " ++ file_path ++ " → " ++
            targetFile ++ " does not exist at " ++ resolvedPath) })
      else
        let _unifiedDiff : String :=
          match params.patch_content with
          | some (.structured changes) =>
              match env.convertDiff changes with
              | .ok d => d
              | .error _ => env.fallbackDiff
          | some (.diffText s) => s
          | none => "undefined"
        let applied := env.confirmAndApply
        .ok (ToolResult.ofBase {
            status := "success",
            user_confirmation := some applied,
            message := some (if applied then "Patch applied successfully"
            else "Patch was rejected by user"),
            patch_applied := some applied })

/-- `propose_fix_by_command(params, context)`. -/
def propose_fix_by_command (params : ToolParams) (env : Env)
    (_context : AgentContext) : Except String ToolResult :=
  let command_to_propose := jsShow params.command_to_propose
  if ¬ env.askYesNo then
    .ok (ToolResult.ofBase {
        status := "success",
        user_confirmation := some false,
        message := some "Command was rejected by user" })
  else
    let result := env.run command_to_propose
    .ok (ToolResult.ofBase {
        status := "success",
        user_confirmation := some true,
        stdout := some result.2,
        stderr := some (if result.1 then "" else result.2),
        exit_code := some (if result.1 then 0 else 1),
        message := some (if result.1 then "Command executed successfully"
        else "Command failed") })

/-- `ask_user_for_clarification(params, context)`. -/
def ask_user_for_clarification (_params : ToolParams) (env : Env)
    (_context : AgentContext) : Except String ToolResult :=
  .ok (ToolResult.ofBase {
      status := "success",
      user_response := some (jsTrim env.askInput) })

/-- `isSearchCacheValid(cachedSearch, context)`: a five-minute TTL and
an mtime check of up to the first five sampled files. -/
def isSearchCacheValid (cached : SearchCacheEntry) (env : Env) : Bool :=
  if (env.nowMs : ℤ) - (cached.timestamp : ℤ) < 5 * 60 * 1000 then
    (cached.searched_files_metadata.take 5).all (fun m =>
      match env.statMtimeSize m.1 with
      | .ok st => st.1 == m.2.1
      | .error _ => false)
  else false

/-- The recursive `searchInDirectory` walk: depth at most 3 (the fuel
counts the remaining levels, starting at 4), hidden directories and
`node_modules` skipped, extension filter, case-insensitive substring
match per line, stopping at `max_results`.  Returns the matches and the
`searchedFiles` metadata. -/
def searchInDir (env : Env) (pattern : String) (exts : List String)
    (maxResults : Nat) :
    Nat → String →
    List SearchResultLine × List (String × Nat × Nat) →
    List SearchResultLine × List (String × Nat × Nat)
  | 0, _, acc => acc
  | fuel + 1, dir, acc =>
      match env.readdir dir with
      | .error _ => acc
      | .ok entries =>
          entries.foldl (fun acc entry =>
            if maxResults ≤ acc.1.length then acc
            else
              let fullPath := joinPath dir entry.name
              if entry.isDir ∧ ¬ jsStartsWith entry.name "." ∧
                  entry.name ≠ "node_modules" then
                searchInDir env pattern exts maxResults fuel fullPath acc
              else if ¬ entry.isDir ∧
                  exts.any (fun ext => jsEndsWith entry.name ext) then
                match env.statMtimeSize fullPath with
                | .error _ => acc
                | .ok st =>
                    let acc := (acc.1, acc.2 ++ [(fullPath, st.1, st.2)])
                    match env.disk fullPath with
                    | none => acc
                    | some content =>
                        let lines := splitLines content
                        (lines.enum.foldl (fun res li =>
                          if maxResults ≤ res.length then res
                          else if strIncludes (strToLower li.2) (strToLower pattern) then
                            res ++ [⟨fullPath, li.1 + 1, jsTrim li.2⟩]
                          else res) acc.1, acc.2)
              else acc) acc

/-- `search_file_content(params, context)`: cache key, cache validation,
or a fresh bounded walk.  The cache write is a context side effect that
is not tracked. -/
def search_file_content (params : ToolParams) (env : Env)
    (context : AgentContext) : Except String ToolResult :=
  match params.search_pattern with
  | none =>
      .ok (ToolResult.ofBase {
          status := "error",
          message := some "Failed to search files: missing pattern" })
  | some search_pattern =>
      let file_extensions := (params.file_extensions).getD
        [".js", ".py", ".ts", ".jsx", ".tsx", ".json"]
      let max_results := (params.max_results).getD 10
      let cacheKey := search_pattern ++ ":" ++
        joinSep "," (sortStringsAsc file_extensions) ++ ":" ++
        toString max_results
      let cachedSearch := (context.knowledge_base.search_results.find?
        (fun kv => kv.1 = cacheKey)).map (fun kv => kv.2)
      match cachedSearch with
      | some cached =>
          if isSearchCacheValid cached env then
            .ok (ToolResult.ofBase {
                status := "success",
                source := some "cached_search_results" })
          else
            let _ := searchInDir env search_pattern file_extensions
              max_results 4 "." ([], [])
            .ok (ToolResult.ofBase {
                status := "success",
                source := some "fresh_content_search" })
      | none =>
          let _ := searchInDir env search_pattern file_extensions
            max_results 4 "." ([], [])
          .ok (ToolResult.ofBase {
              status := "success",
              source := some "fresh_content_search" })

/-- `get_file_structure(params, context)`: serve a compatible cached
structure, otherwise report a fresh scan (tree payload is presentation
data). -/
def get_file_structure (params : ToolParams) (env : Env)
    (context : AgentContext) : Except String ToolResult :=
  let max_depth := (params.max_depth).getD 3
  let include_hidden := (params.include_hidden).getD false
  match context.knowledge_base.file_structure with
  | some cached =>
      if max_depth ≤ cached.max_depth ∧
          (¬ include_hidden ∨ cached.included_hidden) then
        .ok (ToolResult.ofBase {
            status := "success",
            source := some "cached_from_knowledge_base" })
      else
        match env.readdir "." with
        | .error _ => .ok (ToolResult.ofBase {
            status := "success",
            source := some "fresh_filesystem_scan" })
        | .ok _ => .ok (ToolResult.ofBase {
            status := "success",
            source := some "fresh_filesystem_scan" })
  | none =>
      match env.readdir "." with
      | .error _ => .ok (ToolResult.ofBase {
          status := "success",
          source := some "fresh_filesystem_scan" })
      | .ok _ => .ok (ToolResult.ofBase {
          status := "success",
          source := some "fresh_filesystem_scan" })

/-- `finish_debugging(params, context)`: the only tool without its own
`try`/`catch`; a missing `final_status` makes
`final_status.replace(...)` throw, and the exception propagates to the
dispatcher. -/
def finish_debugging (params : ToolParams) (_env : Env)
    (_context : AgentContext) : Except String ToolResult :=
  match params.final_status with
  | none =>
      .error "Cannot read properties of undefined (reading replace)"
  | some fs =>
      .ok (ToolResult.ofBase {
          status := "finished",
          final_status := some fs,
          message := params.conclusion_message_for_user })

/-- The `toolFunctions` dispatch table of `cliTools.js` (the seeded
variant of the tool set, without `initial_error_analyzer`). -/
def toolFunctions (name : String) :
    Option (ToolParams → Env → AgentContext → Except String ToolResult) :=
  match name with
  | "list_directory_contents" => some list_directory_contents
  | "read_file_content" => some read_file_content
  | "run_diagnostic_command" => some run_diagnostic_command
  | "propose_code_patch" => some propose_code_patch
  | "propose_fix_by_command" => some propose_fix_by_command
  | "ask_user_for_clarification" => some ask_user_for_clarification
  | "search_file_content" => some search_file_content
  | "get_file_structure" => some get_file_structure
  | "finish_debugging" => some finish_debugging
  | _ => none

/-- `executeAgentTool(toolName, parameters, context)`, instrumented with
a flag recording whether a tool implementation was actually invoked:
the deduplication gate first, then the table lookup, then the call
wrapped in the dispatcher `try`/`catch`. -/
def executeAgentToolT (processCwd toolName : String) (parameters : ToolParams)
    (env : Env) (context : AgentContext) : ToolResult × Bool :=
  let skipCheck := shouldSkipAction processCwd toolName parameters context
  if skipCheck.should_skip then
    (⟨{
        status := "skipped",
        message := (skipCheck.reason).map (fun r => "Action skipped - " ++ r),
        duplicate_step := skipCheck.duplicate_step },
      match skipCheck.duplicate_step with
      | some ds =>
          (context.recent_actions.find? (fun a => a.step = ds)).map
            (fun a => a.result)
      | none => none⟩, false)
  else
    match toolFunctions toolName with
    | none =>
        (ToolResult.ofBase {
            status := "error",
            message := some ("Unknown tool: " ++ toolName) }, false)
    | some f =>
        match f parameters env context with
        | .ok r => (r, true)
        | .error e =>
            (ToolResult.ofBase {
                status := "error",
                message := some ("Tool execution failed: " ++ e) }, true)

/-- The result component of the dispatcher. -/
def executeAgentTool (processCwd toolName : String) (parameters : ToolParams)
    (env : Env) (context : AgentContext) : ToolResult :=
  (executeAgentToolT processCwd toolName parameters env context).1

/-! ## Orchestrator loop (`src/cli/index.js`, `debugLoop`) -/

/-- A validated planner action. -/
structure AgentAction where
  thought : String
  tool_to_use : String
  tool_parameters : ToolParams

/-- The main agentic `while` loop of `debugLoop`, from a given step
count; the planner (`determineNextAgentAction`) is external and a
`none` models a thrown planner error, which triggers the
`ask_user_for_clarification` recovery path.  The second component of the
result collects the names of the tools whose implementation was actually
dispatched.  The fuel only pads structural recursion: the
`stepCount < 20` guard is what ends the loop. -/
def debugLoopAux (planner : AgentContext → Nat → Option AgentAction)
    (env : Env) (processCwd : String) :
    Nat → Nat → AgentContext → AgentContext × List String
  | 0, _, ctx => (ctx, [])
  | fuel + 1, stepCount, ctx =>
      if 20 ≤ stepCount then (ctx, [])
      else
        let stepCount := stepCount + 1
        let check := shouldTerminateSession ctx
        if check.should_terminate then (ctx, [])
        else
          match planner ctx stepCount with
          | none =>
              let fb : ToolParams :=
                { question_for_user := some
                    "I encountered an error. How would you like me to proceed?" }
              let rd := executeAgentToolT processCwd
                "ask_user_for_clarification" fb env ctx
              let ctx := updateAgentContext processCwd ctx stepCount
                "Recovery attempt after error"
                ⟨none, some "ask_user_for_clarification", fb⟩ rd.1
              let rest := debugLoopAux planner env processCwd fuel stepCount ctx
              (rest.1,
               (if rd.2 then ["ask_user_for_clarification"] else []) ++ rest.2)
          | some action =>
              let rd := executeAgentToolT processCwd action.tool_to_use
                action.tool_parameters env ctx
              let dispatched := if rd.2 then [action.tool_to_use] else []
              if rd.1.status = "finished" then (ctx, dispatched)
              else
                let ctx := updateAgentContext processCwd ctx stepCount
                  action.thought
                  ⟨some action.tool_to_use, some action.tool_to_use,
                   action.tool_parameters⟩ rd.1
                let ctx :=
                  if action.tool_to_use = "run_diagnostic_command" ∧
                      truthyStr rd.1.base.stderr then
                    updateErrorState ctx ((rd.1.base.stderr).getD "") stepCount
                  else ctx
                if action.tool_to_use = "finish_debugging" then
                  (ctx, dispatched)
                else
                  let rest := debugLoopAux planner env processCwd fuel
                    stepCount ctx
                  (rest.1, dispatched ++ rest.2)

/-! ## Session-level invariants used to state the deduplication claim -/

/-- The numeric step of a history entry, when it has one. -/
def Step.stepNum : Step → Option Nat
  | st => match st.step with
    | .num n => some n
    | .tag _ => none

/-- The signature `updateAgentContext` records for a history step:
`createActionSignature(tool_to_use || tool_used, parameters)`. -/
def stepSignature (processCwd : String) (st : Step) : String :=
  createActionSignature processCwd
    (jsShow (jsStrOr st.action_taken.tool_to_use st.action_taken.tool_used))
    st.action_taken.parameters

/-- Bookkeeping invariant of the orchestrator: every history step among
the last 10 has a matching `recent_actions` entry (same step number,
the recorded signature, the recorded result).  `updateAgentContext`
appends exactly one such entry per step and trims the window to 10. -/
def RecentComplete (processCwd : String) (ctx : AgentContext) : Prop :=
  ∀ st ∈ ctx.session_history, ∀ n, st.step = .num n →
    ctx.session_history.length - n < 10 →
    ∃ ra ∈ ctx.recent_actions, ra.step = n ∧
      ra.signature = stepSignature processCwd st ∧ ra.result = st.result

/-- Whether a `read_file_content` call is served from the `files_read`
cache: a full read (no truthy line bounds) of a path whose resolved
content is cached, whose last read with the same `file_path` parameter
happened within the last 3 steps. -/
def readCacheHit (env : Env) (ctx : AgentContext) (params : ToolParams)
    (fp : String) : Bool :=
  let rel := resolvedReadPath env ctx fp
  let cachedContent := (ctx.knowledge_base.files_read.find?
    (fun kv => kv.1 = rel)).map (fun kv => kv.2)
  if ¬ truthyNat params.start_line ∧ ¬ truthyNat params.end_line ∧
      truthyStr cachedContent then
    match ctx.session_history.reverse.find? (fun st =>
        stepToolIs st "read_file_content" &&
        st.action_taken.parameters.file_path == some fp) with
    | some lastRead =>
        match lastRead.step with
        | .num n => decide ((ctx.session_history.length : ℤ) - (n : ℤ) < 3)
        | .tag _ => false
    | none => false
  else false

/-- The `recent_actions` entry `updateAgentContext` records for the
step it appends. -/
def raOf (processCwd : String) (st : Step) : RecentAction :=
  ⟨stepSignature processCwd st,
   (match st.step with
    | .num n => n
    | .tag _ => 0),
   jsStrOr st.action_taken.tool_to_use st.action_taken.tool_used,
   st.action_taken.parameters, st.result⟩

/-- Alignment of the deduplication window with the history: the
`recent_actions` list is exactly the recorded data of the last (at
most) 10 history steps, in order. -/
def WindowAligned (processCwd : String) (ctx : AgentContext) : Prop :=
  ctx.recent_actions = (lastN 10 ctx.session_history).map (raOf processCwd)

/-- The orchestrator numbers history steps `1, 2, 3, …` in order. -/
def WellNumbered (ctx : AgentContext) : Prop :=
  ∀ i (h : i < ctx.session_history.length),
    (ctx.session_history.get ⟨i, h⟩).step = .num (i + 1)

/-! ## Concrete scenarios used by the witnesses -/

/-- A stub environment: empty disk, failing directory and stat oracles,
trivially succeeding subprocess and user interaction. -/
def envStub : Env :=
  ⟨fun _ => none, fun _ => .error "e", fun _ => .error "e",
   fun _ => (true, ""), true, "", true, fun _ => .ok "", "", 0⟩

/-- Parameters of a full read of `a.py`. -/
def paramsRead : ToolParams := { file_path := some "a.py" }

/-- A recorded step-1 full read of `a.py`. -/
def stepRead : Step :=
  ⟨.num 1, "t", none,
   ⟨some "read_file_content", some "read_file_content", paramsRead⟩,
   ToolResult.ofBase { status := "success" }⟩

/-- The matching `recent_actions` entry for `stepRead`. -/
def raRead : RecentAction :=
  ⟨createActionSignature "" "read_file_content" paramsRead, 1,
   some "read_file_content", paramsRead,
   ToolResult.ofBase { status := "success" }⟩

/-- A context that just recorded `stepRead`. -/
def ctxAfterRead : AgentContext :=
  { session_history := [stepRead], recent_actions := [raRead] }

/-- A failed step with the given number. -/
def errStep (n : Nat) : Step :=
  ⟨.num n, "", none, ⟨none, none, {}⟩,
   ToolResult.ofBase { status := "error" }⟩

/-- A context whose three recorded steps all failed. -/
def ctxThreeFailures : AgentContext :=
  { session_history := [errStep 1, errStep 2, errStep 3] }

/-- A context that recorded a successful full read of `a.py` at step 1
and cached its content. -/
def ctxCachedRead : AgentContext :=
  { session_history := [stepRead],
    recent_actions := [raRead],
    knowledge_base := { files_read := [("a.py", "cached")] } }

/-- The context after a first dispatch of the unknown tool
`bogus_tool` has been recorded. -/
def ctxAfterBogus : AgentContext :=
  updateAgentContext "" {} 1 "t"
    ⟨some "bogus_tool", some "bogus_tool", {}⟩
    (executeAgentTool "" "bogus_tool" {} envStub {})

/-! ## Lemmas about the stable sort -/

theorem insertDescBy_perm (f : α → ℚ) (x : α) (l : List α) :
    List.Perm (insertDescBy f x l) (x :: l) := by
  induction l with
  | nil => simp [insertDescBy]
  | cons y ys ih =>
      simp only [insertDescBy]
      by_cases h : f x < f y
      · simp only [if_pos h]
        exact (ih.cons y).trans (List.Perm.swap x y ys)
      · simp [if_neg h]

theorem sortDescBy_perm (f : α → ℚ) (l : List α) :
    List.Perm (sortDescBy f l) l := by
  induction l with
  | nil => simp [sortDescBy]
  | cons x xs ih =>
      exact (insertDescBy_perm f x (sortDescBy f xs)).trans (ih.cons x)

theorem mem_sortDescBy (f : α → ℚ) (l : List α) (a : α) :
    a ∈ sortDescBy f l ↔ a ∈ l :=
  (sortDescBy_perm f l).mem_iff

theorem insertDescBy_pairwise (f : α → ℚ) (x : α) (l : List α)
    (h : l.Pairwise (fun u v => f v ≤ f u)) :
    (insertDescBy f x l).Pairwise (fun u v => f v ≤ f u) := by
  induction l with
  | nil => simp [insertDescBy]
  | cons y ys ih =>
      rcases List.pairwise_cons.mp h with ⟨hy, hys⟩
      simp only [insertDescBy]
      by_cases hxy : f x < f y
      · simp only [if_pos hxy]
        refine List.pairwise_cons.mpr ⟨?_, ih hys⟩
        intro z hz
        rcases List.mem_cons.mp ((insertDescBy_perm f x ys).mem_iff.mp hz) with
          hzx | hzys
        · exact hzx ▸ le_of_lt hxy
        · exact hy z hzys
      · simp only [if_neg hxy]
        refine List.pairwise_cons.mpr ⟨?_, h⟩
        intro z hz
        rcases List.mem_cons.mp hz with hzy | hzys
        · exact hzy ▸ le_of_not_lt hxy
        · exact le_trans (hy z hzys) (le_of_not_lt hxy)

theorem sortDescBy_pairwise (f : α → ℚ) (l : List α) :
    (sortDescBy f l).Pairwise (fun u v => f v ≤ f u) := by
  induction l with
  | nil => simp [sortDescBy]
  | cons x xs ih => exact insertDescBy_pairwise f x _ ih

/-- Inserting only splices the new element in: the old list is the
concatenation of an untouched front and back. -/
theorem insertDescBy_splits (f : α → ℚ) (x : α) (l : List α) :
    ∃ l₁ l₂, l = l₁ ++ l₂ ∧ insertDescBy f x l = l₁ ++ x :: l₂ := by
  induction l with
  | nil => exact ⟨[], [], rfl, rfl⟩
  | cons y ys ih =>
      by_cases h : f x < f y
      · rcases ih with ⟨l₁, l₂, hsplit, hins⟩
        refine ⟨y :: l₁, l₂, by simp [hsplit], ?_⟩
        simp [insertDescBy, if_pos h, hins]
      · exact ⟨[], y :: ys, rfl, by simp [insertDescBy, if_neg h]⟩

theorem sublist_insertDescBy (f : α → ℚ) (x : α) {l' l : List α}
    (h : List.Sublist l' l) : List.Sublist l' (insertDescBy f x l) := by
  rcases insertDescBy_splits f x l with ⟨l₁, l₂, hsplit, hins⟩
  rw [hins]
  exact (hsplit ▸ h).trans
    ((List.append_sublist_append_left l₁).mpr (List.sublist_cons_self x l₂))

/-- If some element `b` of `l` has key not above that of `a`, then
inserting `a` puts it in front of `b`. -/
theorem insertDescBy_pair_of_mem (f : α → ℚ) (a b : α) (l : List α)
    (hb : b ∈ l) (hba : f b ≤ f a) :
    List.Sublist [a, b] (insertDescBy f a l) := by
  induction l with
  | nil => cases hb
  | cons y ys ih =>
      simp only [insertDescBy]
      by_cases h : f a < f y
      · simp only [if_pos h]
        have hby : b ≠ y := by
          intro he
          exact absurd (lt_of_le_of_lt (he ▸ hba) h) (lt_irrefl _)
        have hbys : b ∈ ys := by
          rcases List.mem_cons.mp hb with h1 | h1
          · exact absurd h1 hby
          · exact h1
        exact (ih hbys).cons y
      · simp only [if_neg h]
        exact (List.singleton_sublist.mpr hb).cons₂ a

/-- Stability of the sort: a pair already in descending-or-equal key
order keeps its relative order.  In particular two tied elements are
never reordered. -/
theorem sortDescBy_stable_pair (f : α → ℚ) {a b : α} {l : List α}
    (hba : f b ≤ f a) (h : List.Sublist [a, b] l) :
    List.Sublist [a, b] (sortDescBy f l) := by
  induction l with
  | nil => cases h
  | cons x xs ih =>
      rcases List.sublist_cons_iff.mp h with h' | ⟨r, hr, hsub⟩
      · exact sublist_insertDescBy f x (ih h')
      · injection hr with h1 h2
        subst h1
        subst h2
        have hbmem : b ∈ sortDescBy f xs :=
          (mem_sortDescBy f xs b).mpr (List.singleton_sublist.mp hsub)
        exact insertDescBy_pair_of_mem f a b _ hbmem hba

/-- The head of the sorted list carries a maximal key. -/
theorem sortDescBy_head_max (f : α → ℚ) (l : List α) (h : α) (t : List α)
    (hsort : sortDescBy f l = h :: t) : ∀ x ∈ l, f x ≤ f h := by
  intro x hx
  have hx' : x ∈ h :: t := hsort ▸ (mem_sortDescBy f l x).mpr hx
  rcases List.mem_cons.mp hx' with h1 | h1
  · exact le_of_eq (congrArg f h1)
  · have := List.pairwise_cons.mp (hsort ▸ sortDescBy_pairwise f l)
    exact this.1 x h1


/-! ## Claim C3: size bound of hybrid search -/

/-- Claim C3, counterexample.  The claim bounds the result count by
`min(N, |vector_index|, |bm25_index|)`; the code clamps with
`safeK = min(N, max(|vector_index|, |bm25_index|))` and merges both
lists, so with a vector index of 2 documents, a BM25 index of 1
document and `k = 2` the search returns 2 results although the claimed
bound is `min(2, 2, 1) = 1`.  Each index returns at most
`min(requested, size)` hits, as a real index does. -/
theorem C3_counterexample :
    (hybridSearch "q" 2 1 (3 / 10) (7 / 10) 2
      (fun _ k => ([⟨"C", 1, none⟩] : List SearchHit).take k)
      (fun _ k =>
        ([⟨"A", 1, none⟩, ⟨"B", 1, none⟩] : List SearchHit).take k)).length
      = 2 ∧
    ¬ ((hybridSearch "q" 2 1 (3 / 10) (7 / 10) 2
      (fun _ k => ([⟨"C", 1, none⟩] : List SearchHit).take k)
      (fun _ k =>
        ([⟨"A", 1, none⟩, ⟨"B", 1, none⟩] : List SearchHit).take k)).length
      ≤ min 2 (min 2 1)) := by
  have h : (hybridSearch "q" 2 1 (3 / 10) (7 / 10) 2
      (fun _ k => ([⟨"C", 1, none⟩] : List SearchHit).take k)
      (fun _ k =>
        ([⟨"A", 1, none⟩, ⟨"B", 1, none⟩] : List SearchHit).take k)).length
      = 2 := by
    simp +decide [hybridSearch, mergeResults, mergeEntries, processBM25Hit,
      processVectorHit, freshEntry, sortDescBy, insertDescBy]
    norm_num
  exact ⟨h, by rw [h]; decide⟩

/-- Claim C3, amended: hybrid search invoked with `k = N` returns at
most `min(N, max(|vector_index|, |bm25_index|))` results — the
`safeK` clamp of the source; the two index sizes enter through the
maximum, not the minimum. -/
theorem C3_amended (query : String) (vectorCount bm25Count : Nat)
    (bm25Weight vectorWeight : ℚ) (k : Nat)
    (bm25Search vectorSearch : String → Nat → List SearchHit) :
    (hybridSearch query vectorCount bm25Count bm25Weight vectorWeight k
      bm25Search vectorSearch).length ≤ min k (max vectorCount bm25Count) := by
  simpa [hybridSearch] using
    (List.length_take_le (min k (max vectorCount bm25Count)) _)

/-! ## Claim C7: scale invariance of the fusion weights -/

/-- Claim C7: fusing with weights `(α·w1, α·w2)` for `α > 0` produces
literally the same output as fusing with `(w1, w2)` (hence in
particular the same ranking order of document ids), because the weights
are normalized by their sum before being applied. -/
theorem C7_weight_scaling (query : String) (vectorCount bm25Count : Nat)
    (w1 w2 α : ℚ) (k : Nat)
    (bm25Search vectorSearch : String → Nat → List SearchHit)
    (hα : 0 < α) :
    hybridSearch query vectorCount bm25Count (α * w1) (α * w2) k
      bm25Search vectorSearch =
    hybridSearch query vectorCount bm25Count w1 w2 k
      bm25Search vectorSearch := by
  have hα' : α ≠ 0 := ne_of_gt hα
  have h1 : α * w1 + α * w2 = α * (w1 + w2) := by ring
  have e1 : α * w1 / (α * w1 + α * w2) = w1 / (w1 + w2) := by
    rw [h1, mul_div_mul_left _ _ hα']
  have e2 : α * w2 / (α * w1 + α * w2) = w2 / (w1 + w2) := by
    rw [h1, mul_div_mul_left _ _ hα']
  simp only [hybridSearch, e1, e2]

/-- Claim C7, witness at `α = 2` and the default weights. -/
theorem C7_weight_scaling_witness :
    (0 : ℚ) < 2 ∧
    hybridSearch "q" 1 1 (2 * (3 / 10)) (2 * (7 / 10)) 1
      (fun _ _ => []) (fun _ _ => []) =
    hybridSearch "q" 1 1 (3 / 10) (7 / 10) 1
      (fun _ _ => []) (fun _ _ => []) :=
  ⟨by norm_num,
   C7_weight_scaling "q" 1 1 (3 / 10) (7 / 10) 2 1 _ _ (by norm_num)⟩

/-! ## Claim C8: tie-breaking order of score fusion -/

/-- Claim C8, counterexample.  With normalized default weights
`0.3 / 0.7`, document A (BM25 score 7, vector score 0) and document B
(vector score 3 only) both combine to `2.1`.  The vector ranking
returns B before A, so the claim requires B first among the tie, but
the merged output keeps A first: ties follow the `combinedScores` map
insertion order, in which every BM25-ranked document precedes the
vector-only documents. -/
theorem C8_counterexample :
    (mergeResults [⟨"A", 7, none⟩] [⟨"B", 3, none⟩, ⟨"A", 0, none⟩]
      (3 / 10) (7 / 10)).map (fun m => m.id) = ["A", "B"] ∧
    (mergeResults [⟨"A", 7, none⟩] [⟨"B", 3, none⟩, ⟨"A", 0, none⟩]
      (3 / 10) (7 / 10)).map (fun m => m.combinedScore) =
      [21 / 10, 21 / 10] ∧
    ([⟨"B", 3, none⟩, ⟨"A", 0, none⟩] : List SearchHit).map
      (fun h => h.id) = ["B", "A"] := by
  refine ⟨?_, ?_, by decide⟩ <;>
    · simp +decide [mergeResults, mergeEntries, processBM25Hit,
        processVectorHit, freshEntry, sortDescBy, insertDescBy]
      norm_num

/-- Claim C8, amended: when two documents receive identical combined
scores, the merged output preserves their order in the `combinedScores`
map (`mergeEntries`), whose insertion order lists the BM25-ranked
documents first, in BM25 order, followed by the vector-only documents
in vector order.  Only among tied documents that are all absent from
the BM25 list does this coincide with the vector order. -/
theorem C8_amended (bm25Results vectorResults : List SearchHit)
    (w1 w2 : ℚ) (a b : MergedEntry)
    (heq : a.combinedScore = b.combinedScore)
    (horder : List.Sublist [a, b]
      (mergeEntries bm25Results vectorResults w1 w2)) :
    List.Sublist [a, b] (mergeResults bm25Results vectorResults w1 w2) := by
  simpa [mergeResults] using
    sortDescBy_stable_pair (fun m => m.combinedScore)
      (le_of_eq heq.symm) horder

/-- Claim C8, witness: the tied pair of the counterexample scenario is
preserved in map-insertion order by the sort. -/
theorem C8_amended_witness :
    (⟨"A", none, 7, 0, 21 / 10⟩ : MergedEntry).combinedScore =
      (⟨"B", none, 0, 3, 21 / 10⟩ : MergedEntry).combinedScore ∧
    List.Sublist [⟨"A", none, 7, 0, 21 / 10⟩, ⟨"B", none, 0, 3, 21 / 10⟩]
      (mergeResults [⟨"A", 7, none⟩] [⟨"B", 3, none⟩, ⟨"A", 0, none⟩]
        (3 / 10) (7 / 10)) := by
  have hE : mergeEntries [⟨"A", 7, none⟩] [⟨"B", 3, none⟩, ⟨"A", 0, none⟩]
      (3 / 10) (7 / 10) =
      [⟨"A", none, 7, 0, 21 / 10⟩, ⟨"B", none, 0, 3, 21 / 10⟩] := by
    simp +decide [mergeEntries, processBM25Hit, processVectorHit, freshEntry]
    norm_num
  refine ⟨rfl, ?_⟩
  exact C8_amended _ _ _ _ _ _ rfl (hE ▸ List.Sublist.refl _)

/-! ## Claim C9: the root-cause scoring formula -/

/-- Claim C9, counterexample.  The claim multiplies by `1 + 0.1·m` with
`m` the number of **distinct** significant error tokens found in the
content.  The error log `"missing missing"` has one distinct token but
the source counts occurrences, so a result of combined score 1 whose
content contains `missing` is scored `1.2 = 6/5`, not the `1.1 = 11/10`
the claim predicts. -/
theorem C9_counterexample :
    (identifyRootCauseFile
      [⟨"x", some ⟨"app.py", "app.py", "missing stuff"⟩, 0, 0, 1⟩]
      "missing missing").map (fun s => s.rootCauseScore) = some (6 / 5) ∧
    ((6 : ℚ) / 5 ≠ 11 / 10) := by
  constructor
  · simp +decide [identifyRootCauseFile, scoreResult, countTermMatches,
      errorTermsOf, wordRuns, wordRunsAux, isWordChar, wholeWordIn,
      commonWords, mentionedFiles, scanFilePathsAux, sortDescBy, insertDescBy]
    norm_num
  · norm_num

/-- Claim C9, amended: for a non-empty result list the heuristic
returns a result of maximal root-cause score, where `scoreResult`
doubles the combined score when the metadata file name is among the
file names extracted from the error log by the file-path pattern, and
multiplies by `1 + 0.1·m` with `m` counting, with multiplicity, the
error-log tokens longer than 3 characters, outside the stoplist, that
occur as whole words in the content; an empty list yields null. -/
theorem C9_amended (searchResults : List MergedEntry) (errorLog : String)
    (h : searchResults ≠ []) :
    ∃ r, identifyRootCauseFile searchResults errorLog = some r ∧
      r ∈ searchResults.map (scoreResult errorLog) ∧
      ∀ x ∈ searchResults,
        (scoreResult errorLog x).rootCauseScore ≤ r.rootCauseScore := by
  cases searchResults with
  | nil => exact absurd rfl h
  | cons x xs =>
      obtain ⟨hd, tl, hsort⟩ : ∃ hd tl,
          sortDescBy (fun s => s.rootCauseScore)
            ((x :: xs).map (scoreResult errorLog)) = hd :: tl := by
        cases hs : sortDescBy (fun s => s.rootCauseScore)
            ((x :: xs).map (scoreResult errorLog)) with
        | nil =>
            exfalso
            have hp := sortDescBy_perm (fun s => s.rootCauseScore)
              ((x :: xs).map (scoreResult errorLog))
            rw [hs] at hp
            simpa using hp.length_eq
        | cons hd tl => exact ⟨hd, tl, rfl⟩
      refine ⟨hd, ?_, ?_, ?_⟩
      · show identifyRootCauseFile (x :: xs) errorLog = some hd
        simp only [List.map_cons] at hsort
        simp [identifyRootCauseFile, hsort]
      · have hmem : hd ∈ sortDescBy (fun s => s.rootCauseScore)
            ((x :: xs).map (scoreResult errorLog)) := by
          rw [hsort]; exact List.mem_cons_self _ _
        exact (mem_sortDescBy _ _ _).mp hmem
      · intro y hy
        exact sortDescBy_head_max (fun s => s.rootCauseScore) _ hd tl hsort _
          (List.mem_map_of_mem _ hy)

/-- Claim C9, witness at a one-element result list. -/
theorem C9_amended_witness :
    ∃ r, identifyRootCauseFile [⟨"x", none, 0, 0, 1⟩] "KeyError: id"
        = some r ∧
      r ∈ ([⟨"x", none, 0, 0, 1⟩] : List MergedEntry).map
        (scoreResult "KeyError: id") ∧
      ∀ y ∈ ([⟨"x", none, 0, 0, 1⟩] : List MergedEntry),
        (scoreResult "KeyError: id" y).rootCauseScore ≤ r.rootCauseScore :=
  C9_amended [⟨"x", none, 0, 0, 1⟩] "KeyError: id" (by simp)

/-! ## Claim C1: error-state update -/

/-- Claim C1, counterexample.  The claim installs the parsed error as
the new blocking error whenever it differs from the previous one.  With
a previous blocking `Error: a` and new output `Error: b`, the parsed
error differs (different message) but `compareErrors` reports neither
`is_new_error` nor `is_progression` nor `is_same_error` (same type,
same file set, different message), so `updateErrorState` leaves the old
error installed and archives nothing. -/
theorem C1_counterexample :
    parseErrorFromOutput "Error: b" =
      some ⟨"Error", "b", "Error: b", [], []⟩ ∧
    (⟨"Error", "b", "Error: b", [], []⟩ : ParsedError) ≠
      ⟨"Error", "a", "Error: a", [], []⟩ ∧
    (updateErrorState
      ({ current_blocking_error :=
          some ⟨⟨"Error", "a", "Error: a", [], []⟩, 1, none, "active"⟩ } :
        AgentContext) "Error: b" 5).current_blocking_error =
      some ⟨⟨"Error", "a", "Error: a", [], []⟩, 1, none, "active"⟩ ∧
    (updateErrorState
      ({ current_blocking_error :=
          some ⟨⟨"Error", "a", "Error: a", [], []⟩, 1, none, "active"⟩ } :
        AgentContext) "Error: b" 5).solved_issues = [] := by
  decide

/-- Claim C1, amended: if no error is parsed and a previous blocking
error existed, it is archived with `resolution_step = s` and the
blocking error is cleared; and the parsed error is installed as the new
blocking error (with `first_seen_step = s`) exactly when there was no
previous error or the parsed error's *type* differs from the previous
one, in which case the previous error, if any, is archived with
`resolution_step = s - 1`.  A parsed error of the previous type with a
different message or file set leaves the blocking error unchanged. -/
theorem C1_amended (ctx : AgentContext) (out : String) (s : Nat) :
    (parseErrorFromOutput out = none →
      ∀ prev, ctx.current_blocking_error = some prev →
        (updateErrorState ctx out s).current_blocking_error = none ∧
        (updateErrorState ctx out s).solved_issues =
          ctx.solved_issues ++
            [⟨prev.err, prev.first_seen_step, prev.last_seen_step,
              (s : ℤ), "resolved"⟩]) ∧
    (∀ e, parseErrorFromOutput out = some e →
      (ctx.current_blocking_error = none ∨
        (∃ prev, ctx.current_blocking_error = some prev ∧
          prev.err.type ≠ e.type)) →
      (updateErrorState ctx out s).current_blocking_error =
        some ⟨e, s, none, "active"⟩ ∧
      (ctx.current_blocking_error = none →
        (updateErrorState ctx out s).solved_issues = ctx.solved_issues) ∧
      (∀ prev, ctx.current_blocking_error = some prev →
        (updateErrorState ctx out s).solved_issues =
          ctx.solved_issues ++
            [⟨prev.err, prev.first_seen_step, prev.last_seen_step,
              (s : ℤ) - 1, "resolved"⟩])) := by
  constructor
  · intro hparse prev hprev
    simp [updateErrorState, hparse, hprev]
  · intro e hparse hcond
    rcases hcond with hnone | ⟨prev, hprev, hty⟩
    · refine ⟨?_, fun _ => ?_, fun prev hprev => ?_⟩ <;>
        simp_all [updateErrorState, hparse, hnone, compareErrors]
    · have hinstall :
          ((compareErrors (some prev) (some e)).is_new_error ||
            (compareErrors (some prev) (some e)).is_progression) = true := by
        by_cases hsf : prev.err.file_refs = e.file_refs <;>
          simp [compareErrors, hty, hsf]
      refine ⟨?_, fun hn => ?_, fun prev' hprev' => ?_⟩
      · simp [updateErrorState, hparse, hprev, hinstall]
      · rw [hprev] at hn; cases hn
      · rw [hprev'] at hprev
        injection hprev with hpe
        subst hpe
        simp [updateErrorState, hparse, hprev', hinstall]

/-- Claim C1, witness: the resolved branch at empty output with a
pending blocking error, and the install branch on a fresh context. -/
theorem C1_amended_witness :
    ((updateErrorState
      ({ current_blocking_error :=
          some ⟨⟨"KeyError", "k", "KeyError: k", [], []⟩, 1, none,
            "active"⟩ } : AgentContext) "" 3).current_blocking_error
        = none ∧
      (updateErrorState
        ({ current_blocking_error :=
            some ⟨⟨"KeyError", "k", "KeyError: k", [], []⟩, 1, none,
              "active"⟩ } : AgentContext) "" 3).solved_issues =
        [] ++ [⟨⟨"KeyError", "k", "KeyError: k", [], []⟩, 1, none,
          (3 : ℤ), "resolved"⟩]) ∧
    AgentContext.current_blocking_error
        (updateErrorState ({} : AgentContext) "KeyError: k" 2) =
      some ⟨⟨"KeyError", "k", "KeyError: k", [], []⟩, 2, none, "active"⟩ := by
  constructor
  · exact (C1_amended
      ({ current_blocking_error :=
          some ⟨⟨"KeyError", "k", "KeyError: k", [], []⟩, 1, none,
            "active"⟩ } : AgentContext) "" 3).1 (by decide) _ rfl
  · exact ((C1_amended ({} : AgentContext) "KeyError: k" 2).2
      ⟨"KeyError", "k", "KeyError: k", [], []⟩ (by decide) (Or.inl rfl)).1

/-! ## Claim C6: purity of context optimization -/

/-- Claim C6: the optimizer never mutates the authoritative context.
The source deep-copies the context (`JSON.parse(JSON.stringify(...))`,
the identity on this plain-data record) and every subsequent mutation
targets the copy, so the caller's context after the call is exactly the
input, and all trimming, summarizing and truncation appear only in the
returned copy (`optimizeAgentContext`). -/
theorem C6_optimizer_pure (ctx : AgentContext) :
    (optimizeAgentContextMut ctx).1 = ctx ∧
    (optimizeAgentContextMut ctx).2 = optimizeAgentContext ctx :=
  ⟨rfl, rfl⟩

/-! ## Claim C4: termination policy -/

/-- Claim C4: the termination check fires when the recorded step count
reaches `max_session_steps` (default 20 via the `|| 20` fallback) or
when the last 3 recorded steps all have result status `error`; and the
orchestrator loop started on such a context ends at once, dispatching
no tool. -/
theorem C4_termination (ctx : AgentContext)
    (h : (if ctx.constraints.max_session_steps = 0 then 20
          else ctx.constraints.max_session_steps) ≤
            ctx.session_history.length ∨
         (3 ≤ ctx.session_history.length ∧
          ∀ st ∈ lastN 3 ctx.session_history,
            st.result.status = "error")) :
    (shouldTerminateSession ctx).should_terminate = true ∧
    ∀ planner env processCwd fuel stepCount,
      (debugLoopAux planner env processCwd fuel stepCount ctx).2 = [] := by
  have hterm : (shouldTerminateSession ctx).should_terminate = true := by
    unfold shouldTerminateSession
    rcases h with h1 | ⟨h3, hall⟩
    · simp [h1]
    · by_cases hcap :
        (if ctx.constraints.max_session_steps = 0 then 20
         else ctx.constraints.max_session_steps) ≤
          ctx.session_history.length
      · simp [hcap]
      · have hlen : (lastN 3 ctx.session_history).length = 3 := by
          simp [lastN]
          omega
        have hfilter : (lastN 3 ctx.session_history).filter
            (fun st => st.result.status == "error") =
            lastN 3 ctx.session_history := by
          apply List.filter_eq_self.mpr
          intro st hst
          simpa using hall st hst
        simp [hcap, hfilter, hlen]
  refine ⟨hterm, ?_⟩
  intro planner env processCwd fuel stepCount
  cases fuel with
  | zero => simp [debugLoopAux]
  | succ n =>
      by_cases h20 : 20 ≤ stepCount
      · simp [debugLoopAux, h20]
      · simp [debugLoopAux, h20, hterm]

/-- Claim C4, witness: a session whose last three steps all failed is
terminated with no further dispatch. -/
theorem C4_termination_witness :
    (shouldTerminateSession ctxThreeFailures).should_terminate = true ∧
    (debugLoopAux (fun _ _ => none) envStub "" 5 0 ctxThreeFailures).2
      = [] := by
  have h := C4_termination ctxThreeFailures (Or.inr ⟨by decide, by decide⟩)
  exact ⟨h.1, h.2 (fun _ _ => none) envStub "" 5 0⟩

/-! ## Claim C2: deduplication gate -/

/-- With distinct step numbers, the first recent action found by step
number is the action itself. -/
theorem find?_by_step {l : List RecentAction} {rd : RecentAction}
    (hmem : rd ∈ l) (hnd : (l.map (fun ra => ra.step)).Nodup) :
    l.find? (fun a2 => a2.step = rd.step) = some rd := by
  induction l with
  | nil => cases hmem
  | cons x xs ih =>
      rw [List.map_cons, List.nodup_cons] at hnd
      rcases List.mem_cons.mp hmem with rfl | hmm
      · simp [List.find?]
      · have hx : ¬ (x.step = rd.step) := by
          intro he
          exact hnd.1 (he ▸ List.mem_map_of_mem (fun ra => ra.step) hmm)
        rw [List.find?_cons_of_neg _ (by simpa using hx)]
        exact ih hmm hnd.2

/-- `Array.prototype.slice(-n)` commutes with `map`. -/
theorem lastN_map (f : α → β) (n : Nat) (l : List α) :
    lastN n (l.map f) = (lastN n l).map f := by
  simp [lastN, List.map_drop]

/-- Appending one element to a `slice(-n)` window and re-trimming to
`n` elements gives the `slice(-n)` window of the extended list. -/
theorem lastN_append_trim (n : Nat) (hn : 0 < n) (l : List α) (x : α) :
    (if n < (lastN n l ++ [x]).length then lastN n (lastN n l ++ [x])
     else lastN n l ++ [x]) = lastN n (l ++ [x]) := by
  by_cases hle : n ≤ l.length
  · have hlen : (lastN n l).length = n := by
      simp [lastN]
      omega
    rw [if_pos (by simp [hlen])]
    unfold lastN
    rw [List.drop_append_of_le_length (by simp [hlen]; omega),
      List.drop_append_of_le_length (by simp; omega),
      List.drop_drop]
    have hk : l.length - n + ((List.drop (l.length - n) l ++ [x]).length - n)
        = (l ++ [x]).length - n := by
      simp
      omega
    rw [hk]
  · push_neg at hle
    have h0 : l.length - n = 0 := by omega
    simp only [lastN, h0, List.drop_zero, List.length_append,
      List.length_singleton]
    rw [if_neg (by omega)]
    have h1 : l.length + 1 - n = 0 := by omega
    rw [h1, List.drop_zero]

/-- Appending the image of one element to a mapped `slice(-10)` window
and trimming equals mapping over the trimmed extended window. -/
theorem trim_window_map (f : α → β) (l : List α) (x : α) :
    (if 10 < ((lastN 10 l).map f ++ [f x]).length
     then lastN 10 ((lastN 10 l).map f ++ [f x])
     else (lastN 10 l).map f ++ [f x]) = (lastN 10 (l ++ [x])).map f := by
  have h1 : (lastN 10 l).map f ++ [f x] = (lastN 10 l ++ [x]).map f := by
    simp
  rw [h1, List.length_map, lastN_map, ← apply_ite (List.map f),
    lastN_append_trim 10 (by omega)]

/-- `updateAgentContext` keeps the deduplication window aligned with
the last 10 history steps when the appended step is numbered
`|history| + 1`, as in `debugLoop`. -/
theorem updateAgentContext_windowAligned (processCwd : String)
    (ctx : AgentContext) (thought : String) (act : ActionTaken)
    (res : ToolResult) (hA : WindowAligned processCwd ctx) :
    WindowAligned processCwd
      (updateAgentContext processCwd ctx (ctx.session_history.length + 1)
        thought act res) := by
  unfold WindowAligned at hA ⊢
  simp only [updateAgentContext]
  rw [hA]
  exact trim_window_map (raOf processCwd) ctx.session_history
    ⟨.num (ctx.session_history.length + 1), thought, none, act, res⟩

/-- `updateAgentContext` preserves consecutive step numbering when the
appended step is numbered `|history| + 1`. -/
theorem updateAgentContext_wellNumbered (processCwd : String)
    (ctx : AgentContext) (thought : String) (act : ActionTaken)
    (res : ToolResult) (hW : WellNumbered ctx) :
    WellNumbered (updateAgentContext processCwd ctx
      (ctx.session_history.length + 1) thought act res) := by
  intro i h
  simp only [updateAgentContext, List.get_eq_getElem] at h ⊢
  simp only [List.length_append, List.length_singleton] at h
  rcases Nat.lt_or_ge i ctx.session_history.length with hi | hi
  · rw [List.getElem_append_left hi]
    have := hW i hi
    simpa [List.get_eq_getElem] using this
  · have hieq : i = ctx.session_history.length := by omega
    subst hieq
    rw [List.getElem_append_right (le_refl _)]
    simp

/-- The window-alignment and numbering invariants together imply the
`RecentComplete` bookkeeping assumption used by the deduplication
analysis. -/
theorem recentComplete_of_windowAligned (processCwd : String)
    (ctx : AgentContext) (hA : WindowAligned processCwd ctx)
    (hW : WellNumbered ctx) : RecentComplete processCwd ctx := by
  intro st hst n hn hwin
  obtain ⟨⟨i, hi⟩, hget⟩ := List.get_of_mem hst
  have hnum := hW i hi
  rw [hget] at hnum
  rw [hn] at hnum
  injection hnum with hni
  have hm : st ∈ lastN 10 ctx.session_history := by
    have hj : i - (ctx.session_history.length - 10) <
        (lastN 10 ctx.session_history).length := by
      simp [lastN]
      omega
    have hk : ctx.session_history.length - 10 +
        (i - (ctx.session_history.length - 10)) = i := by omega
    have hg : (lastN 10 ctx.session_history).get
        ⟨i - (ctx.session_history.length - 10), hj⟩ = st := by
      rw [← hget]
      simp [lastN, List.getElem_drop, hk]
    exact hg ▸ List.get_mem _ _ hj
  refine ⟨raOf processCwd st, ?_, ?_, rfl, rfl⟩
  · rw [hA]
    exact List.mem_map_of_mem _ hm
  · simp [raOf, hn]

/-- Claim C2: if a recorded step `a` has the same action signature as
the action about to run at step `b = |history| + 1`, with
`step_no(a) < b < step_no(a) + 3`, then the dispatcher does not execute
the tool: it returns a `skipped` result carrying the step number and
recorded result of a matching recent action inside the window.
`RecentComplete` is the bookkeeping invariant linking `session_history`
to the `recent_actions` window, and the step numbers in the window are
distinct. -/
theorem C2_dedup_skip (processCwd : String) (ctx : AgentContext) (env : Env)
    (toolName : String) (params : ToolParams) (a : Step) (na : Nat)
    (hmem : a ∈ ctx.session_history) (hnum : a.step = .num na)
    (hab : na < ctx.session_history.length + 1)
    (hwin : ctx.session_history.length + 1 < na + 3)
    (hinv : RecentComplete processCwd ctx)
    (hnodup : (ctx.recent_actions.map (fun ra => ra.step)).Nodup)
    (hsig : stepSignature processCwd a =
      createActionSignature processCwd toolName params) :
    (executeAgentToolT processCwd toolName params env ctx).2 = false ∧
    (executeAgentToolT processCwd toolName params env ctx).1.status =
      "skipped" ∧
    ∃ ra ∈ ctx.recent_actions,
      ra.signature = createActionSignature processCwd toolName params ∧
      (ctx.session_history.length : ℤ) - 3 < (ra.step : ℤ) ∧
      (executeAgentToolT processCwd toolName params
        env ctx).1.base.duplicate_step = some ra.step ∧
      (executeAgentToolT processCwd toolName params env ctx).1.prev =
        some ra.result := by
  have hlen10 : ctx.session_history.length - na < 10 := by omega
  obtain ⟨ra₀, hra₀mem, hra₀step, hra₀sig, _⟩ :=
    hinv a hmem na hnum hlen10
  have hp : (decide (ra₀.signature =
        createActionSignature processCwd toolName params) &&
      decide ((ctx.session_history.length : ℤ) - 3 < (ra₀.step : ℤ)))
        = true := by
    rw [Bool.and_eq_true, decide_eq_true_iff, decide_eq_true_iff]
    refine ⟨hra₀sig.trans hsig, ?_⟩
    rw [hra₀step]
    omega
  obtain ⟨rd, hrd⟩ : ∃ rd, ctx.recent_actions.find?
      (fun action => decide (action.signature =
          createActionSignature processCwd toolName params) &&
        decide ((ctx.session_history.length : ℤ) - 3 <
          (action.step : ℤ))) = some rd := by
    have hs : (ctx.recent_actions.find?
        (fun action => decide (action.signature =
            createActionSignature processCwd toolName params) &&
          decide ((ctx.session_history.length : ℤ) - 3 <
            (action.step : ℤ)))).isSome :=
      List.find?_isSome.mpr ⟨ra₀, hra₀mem, hp⟩
    exact Option.isSome_iff_exists.mp hs
  have hrdmem := List.mem_of_find?_eq_some hrd
  have hrdp := List.find?_some hrd
  rw [Bool.and_eq_true, decide_eq_true_iff, decide_eq_true_iff] at hrdp
  have hfindstep : ctx.recent_actions.find?
      (fun a2 => a2.step = rd.step) = some rd := find?_by_step hrdmem hnodup
  refine ⟨?_, ?_, rd, hrdmem, hrdp.1, hrdp.2, ?_, ?_⟩ <;>
    simp [executeAgentToolT, shouldSkipAction, hrd, hfindstep,
      ToolResult.status, ToolResult.base, ToolResult.prev]

/-- Claim C2, witness: a repeat of a full-file read one step after it
was recorded is skipped by the dispatcher. -/
theorem C2_dedup_skip_witness :
    (executeAgentToolT "" "read_file_content" paramsRead envStub
      ctxAfterRead).2 = false ∧
    (executeAgentToolT "" "read_file_content" paramsRead envStub
      ctxAfterRead).1.status = "skipped" ∧
    ∃ ra ∈ ctxAfterRead.recent_actions,
      ra.signature = createActionSignature "" "read_file_content"
        paramsRead ∧
      (ctxAfterRead.session_history.length : ℤ) - 3 < (ra.step : ℤ) ∧
      (executeAgentToolT "" "read_file_content" paramsRead envStub
        ctxAfterRead).1.base.duplicate_step = some ra.step ∧
      (executeAgentToolT "" "read_file_content" paramsRead envStub
        ctxAfterRead).1.prev = some ra.result := by
  refine C2_dedup_skip "" ctxAfterRead envStub "read_file_content"
    paramsRead stepRead 1 (List.mem_cons_self _ _) rfl (by decide)
    (by decide) ?_ (by decide) (by decide)
  intro st hst n hn _
  have hst' : st = stepRead := List.mem_singleton.mp hst
  subst hst'
  have hn1 : n = 1 := by
    have h2 : StepId.num 1 = StepId.num n := hn
    injection h2 with h1
    omega
  subst hn1
  exact ⟨raRead, List.mem_cons_self _ _, rfl, by decide, rfl⟩

/-! ## Claim C5: read_file_content -/

/-- Claim C5, counterexample.  The cache check runs before the
existence check, so a full-file re-read within 3 steps of a prior read
is served from `files_read` even when the resolved file no longer
exists on disk: the result is `success`, not the
`File not found` error the claim requires for every missing file. -/
theorem C5_counterexample :
    envStub.disk (resolvedReadPath envStub ctxCachedRead "a.py") = none ∧
    ∃ r, read_file_content paramsRead envStub ctxCachedRead = .ok r ∧
      r.base.status = "success" ∧ r.base.cached = true ∧
      r.base.status ≠ "error" := by
  exact ⟨rfl, _, rfl, rfl, rfl, by decide⟩

/-- Claim C5, amended: when the call is not served from the read cache
and the resolved file does not exist on disk, the result is an `error`
with message `File not found: <requested path>`; and a full-file read
whose path content is cached and whose previous read with the same
parameter lies within the last 3 steps is served from the `files_read`
cache (whether or not the file changed — the read cache has no
freshness check). -/
theorem C5_amended (env : Env) (ctx : AgentContext) (params : ToolParams)
    (fp : String) (hfp : params.file_path = some fp) :
    (readCacheHit env ctx params fp = false →
      env.disk (resolvedReadPath env ctx fp) = none →
      read_file_content params env ctx =
        .ok (ToolResult.ofBase
          { status := "error",
            message := some ("File not found: " ++ fp) })) ∧
    (readCacheHit env ctx params fp = true →
      ∃ r, read_file_content params env ctx = .ok r ∧
        r.base.status = "success" ∧ r.base.cached = true ∧
        r.base.content = (ctx.knowledge_base.files_read.find?
          (fun kv => kv.1 = resolvedReadPath env ctx fp)).map
            (fun kv => kv.2)) := by
  constructor
  · intro hmiss hdisk
    unfold readCacheHit at hmiss
    simp only [read_file_content, hfp]
    split
    · next hc =>
        rw [if_pos hc] at hmiss
        split
        · next lastRead heq =>
            simp only [heq] at hmiss
            split
            · next n heq2 =>
                simp only [heq2] at hmiss
                split
                · next hw => simp [hw] at hmiss
                · simp [hdisk]
            · simp [hdisk]
        · simp [hdisk]
    · simp [hdisk]
  · intro hhit
    unfold readCacheHit at hhit
    simp only [read_file_content, hfp]
    split
    · next hc =>
        rw [if_pos hc] at hhit
        split
        · next lastRead heq =>
            simp only [heq] at hhit
            split
            · next n heq2 =>
                simp only [heq2] at hhit
                split
                · next hw =>
                    refine ⟨_, rfl, rfl, rfl, ?_⟩
                    rcases hc with ⟨_, _, hcc⟩
                    cases hfr : (ctx.knowledge_base.files_read.find?
                        (fun kv => kv.1 = resolvedReadPath env ctx fp)).map
                          (fun kv => kv.2) with
                    | none => rw [hfr] at hcc; simp [truthyStr] at hcc
                    | some c =>
                        simp [hfr, ToolResult.ofBase, ToolResult.base]
                · next hw => simp [hw] at hhit
            · next s2 heq2 => simp [heq2] at hhit
        · next heq => simp [heq] at hhit
    · next hc => rw [if_neg hc] at hhit; simp at hhit

/-- Claim C5, witness: the `File not found` error on an empty context,
and the cached read on `ctxCachedRead`. -/
theorem C5_amended_witness :
    read_file_content paramsRead envStub ({} : AgentContext) =
      .ok (ToolResult.ofBase
        { status := "error",
          message := some ("File not found: " ++ "a.py") }) ∧
    ∃ r, read_file_content paramsRead envStub ctxCachedRead = .ok r ∧
      r.base.status = "success" ∧ r.base.cached = true ∧
      r.base.content = (ctxCachedRead.knowledge_base.files_read.find?
        (fun kv => kv.1 = resolvedReadPath envStub ctxCachedRead "a.py")).map
          (fun kv => kv.2) := by
  constructor
  · exact (C5_amended envStub {} paramsRead "a.py" rfl).1 (by decide) rfl
  · exact (C5_amended envStub ctxCachedRead paramsRead "a.py" rfl).2
      (by decide)

/-! ## Claim C10: totality of the tool dispatcher -/

/-- Status values a tool result can carry. -/
def statusSet : List String := ["success", "error", "finished", "skipped"]

theorem read_file_content_status (p : ToolParams) (env : Env)
    (ctx : AgentContext) (r : ToolResult)
    (h : read_file_content p env ctx = .ok r) : r.status ∈ statusSet := by
  simp only [read_file_content] at h
  repeat' split at h
  all_goals
    injection h with h2
  all_goals
    subst h2
  all_goals
    simp [ToolResult.status, ToolResult.ofBase, ToolResult.base, statusSet]

theorem list_directory_contents_status (p : ToolParams) (env : Env)
    (ctx : AgentContext) (r : ToolResult)
    (h : list_directory_contents p env ctx = .ok r) : r.status ∈ statusSet := by
  simp only [list_directory_contents] at h
  repeat' split at h
  all_goals
    injection h with h2
  all_goals
    subst h2
  all_goals
    simp [ToolResult.status, ToolResult.ofBase, ToolResult.base, statusSet]

theorem run_diagnostic_command_status (p : ToolParams) (env : Env)
    (ctx : AgentContext) (r : ToolResult)
    (h : run_diagnostic_command p env ctx = .ok r) : r.status ∈ statusSet := by
  simp only [run_diagnostic_command] at h
  repeat' split at h
  all_goals
    injection h with h2
  all_goals
    subst h2
  all_goals
    simp only [ToolResult.status, ToolResult.ofBase, ToolResult.base, statusSet]
  all_goals
    simp

theorem propose_code_patch_status (p : ToolParams) (env : Env)
    (ctx : AgentContext) (r : ToolResult)
    (h : propose_code_patch p env ctx = .ok r) : r.status ∈ statusSet := by
  simp only [propose_code_patch] at h
  repeat' split at h
  all_goals
    injection h with h2
  all_goals
    subst h2
  all_goals
    simp [ToolResult.status, ToolResult.ofBase, ToolResult.base, statusSet]

theorem propose_fix_by_command_status (p : ToolParams) (env : Env)
    (ctx : AgentContext) (r : ToolResult)
    (h : propose_fix_by_command p env ctx = .ok r) : r.status ∈ statusSet := by
  simp only [propose_fix_by_command] at h
  repeat' split at h
  all_goals
    injection h with h2
  all_goals
    subst h2
  all_goals
    simp [ToolResult.status, ToolResult.ofBase, ToolResult.base, statusSet]

theorem ask_user_for_clarification_status (p : ToolParams) (env : Env)
    (ctx : AgentContext) (r : ToolResult)
    (h : ask_user_for_clarification p env ctx = .ok r) :
    r.status ∈ statusSet := by
  simp only [ask_user_for_clarification] at h
  injection h with h2
  subst h2
  simp [ToolResult.status, ToolResult.ofBase, ToolResult.base, statusSet]

theorem search_file_content_status (p : ToolParams) (env : Env)
    (ctx : AgentContext) (r : ToolResult)
    (h : search_file_content p env ctx = .ok r) : r.status ∈ statusSet := by
  simp only [search_file_content] at h
  repeat' split at h
  all_goals
    injection h with h2
  all_goals
    subst h2
  all_goals
    simp [ToolResult.status, ToolResult.ofBase, ToolResult.base, statusSet]

theorem get_file_structure_status (p : ToolParams) (env : Env)
    (ctx : AgentContext) (r : ToolResult)
    (h : get_file_structure p env ctx = .ok r) : r.status ∈ statusSet := by
  simp only [get_file_structure] at h
  repeat' split at h
  all_goals
    injection h with h2
  all_goals
    subst h2
  all_goals
    simp [ToolResult.status, ToolResult.ofBase, ToolResult.base, statusSet]

theorem finish_debugging_status (p : ToolParams) (env : Env)
    (ctx : AgentContext) (r : ToolResult)
    (h : finish_debugging p env ctx = .ok r) : r.status ∈ statusSet := by
  simp only [finish_debugging] at h
  split at h
  · cases h
  · injection h with h2
    subst h2
    simp [ToolResult.status, ToolResult.ofBase, ToolResult.base, statusSet]

/-- Every entry of the dispatch table yields results with a status in
the closed set. -/
theorem toolFunctions_status (name : String)
    (f : ToolParams → Env → AgentContext → Except String ToolResult)
    (htf : toolFunctions name = some f) (p : ToolParams) (env : Env)
    (ctx : AgentContext) (r : ToolResult) (h : f p env ctx = .ok r) :
    r.status ∈ statusSet := by
  unfold toolFunctions at htf
  split at htf
  · injection htf with h2
    subst h2
    exact list_directory_contents_status p env ctx r h
  · injection htf with h2
    subst h2
    exact read_file_content_status p env ctx r h
  · injection htf with h2
    subst h2
    exact run_diagnostic_command_status p env ctx r h
  · injection htf with h2
    subst h2
    exact propose_code_patch_status p env ctx r h
  · injection htf with h2
    subst h2
    exact propose_fix_by_command_status p env ctx r h
  · injection htf with h2
    subst h2
    exact ask_user_for_clarification_status p env ctx r h
  · injection htf with h2
    subst h2
    exact search_file_content_status p env ctx r h
  · injection htf with h2
    subst h2
    exact get_file_structure_status p env ctx r h
  · injection htf with h2
    subst h2
    exact finish_debugging_status p env ctx r h
  · cases htf

/-- Claim C10, amended: the dispatcher is total — every call returns a
result whose status is `success`, `error`, `finished` or `skipped`
(exceptions thrown inside a tool are caught and become `error`
results), and an unknown tool name yields the `Unknown tool: <name>`
error *provided the deduplication gate did not fire first*; a recorded
duplicate signature pre-empts the unknown-tool check with a `skipped`
result. -/
theorem C10_dispatcher_total (processCwd toolName : String)
    (params : ToolParams) (env : Env) (ctx : AgentContext) :
    (executeAgentTool processCwd toolName params env ctx).status ∈
      statusSet ∧
    (toolFunctions toolName = none →
      (shouldSkipAction processCwd toolName params ctx).should_skip = false →
      executeAgentTool processCwd toolName params env ctx =
        ToolResult.ofBase
          { status := "error",
            message := some ("Unknown tool: " ++ toolName) }) := by
  constructor
  · unfold executeAgentTool executeAgentToolT
    by_cases hskip : (shouldSkipAction processCwd toolName params ctx).should_skip
    · simp [hskip, ToolResult.status, ToolResult.base, statusSet]
    · simp only [hskip, Bool.false_eq_true, if_false, ite_false]
      cases htf : toolFunctions toolName with
      | none => simp [ToolResult.status, ToolResult.ofBase, ToolResult.base, statusSet]
      | some f =>
          cases hres : f params env ctx with
          | ok r =>
              simp only [hres]
              simpa using toolFunctions_status toolName f htf params env ctx
                r hres
          | error e =>
              simp only [hres]
              simp [ToolResult.status, ToolResult.ofBase, ToolResult.base,
                statusSet]
  · intro hnone hnoskip
    unfold executeAgentTool executeAgentToolT
    simp [hnoskip, hnone]

/-- Claim C10, counterexample (to the unconditional unknown-tool
clause).  An unknown tool name yields the `Unknown tool` error only on
first sight: once that attempt is recorded, an identical call within 3
steps is intercepted by the deduplication gate and returns `skipped`
instead of the claimed error. -/
theorem C10_counterexample :
    executeAgentTool "" "bogus_tool" {} envStub ({} : AgentContext) =
      ToolResult.ofBase
        { status := "error",
          message := some ("Unknown tool: " ++ "bogus_tool") } ∧
    (executeAgentTool "" "bogus_tool" {} envStub ctxAfterBogus).status =
      "skipped" ∧
    "skipped" ≠ "error" := by
  exact ⟨rfl, by decide, by decide⟩

/-- Claim C10, witness: the unknown-tool error on a fresh context, and
the status-set membership at the same call. -/
theorem C10_dispatcher_total_witness :
    (executeAgentTool "" "nonexistent_tool" {} envStub
      ({} : AgentContext)).status ∈ statusSet ∧
    executeAgentTool "" "nonexistent_tool" {} envStub ({} : AgentContext) =
      ToolResult.ofBase
        { status := "error",
          message := some ("Unknown tool: " ++ "nonexistent_tool") } :=
  ⟨(C10_dispatcher_total "" "nonexistent_tool" {} envStub {}).1,
   (C10_dispatcher_total "" "nonexistent_tool" {} envStub {}).2 rfl
     (by decide)⟩

end Cloi
